import Mathlib

set_option maxHeartbeats 1000000

/-!
Verification development for the golf-round recording app, centred on the
round-completion pipeline of `src/services/roundservice.js` and the shot
bookkeeping of `TrackerScreen.js`.

Embedding conventions:
* Machine integers are `Nat`/`Int`; timestamps are `Nat` milliseconds.
* `AsyncStorage` is modelled as the structured values it stores: JSON
  stringify/parse of the records used here round-trips, so the text layer is
  elided.  The key `round_{id}_holes` is modelled as a map indexed by the
  round id; the checkpoint key likewise.
* A stored checkpoint cell is either a well-formed checkpoint (`CheckBlob.valid`)
  or text that does not parse (`CheckBlob.corrupt`); a read that throws is a
  separate environment flag.
* Remote (supabase) calls can fail; the fault-injection environment `Env`
  carries an optional error message per call site.  `none` means the call
  succeeds.
* JS errors reaching the orchestrator are either objects with a `.message`
  string or the `{step, originalError}` wrappers thrown by the step
  functions, which have no `.message` field (reading it yields `undefined`,
  modelled as `none`).
-/

namespace GolfRound

/-- A recorded golf shot, as pushed by `addShot` in `TrackerScreen.js`:
`{type, result, timestamp}`. -/
structure Shot where
  type : String
  result : String
  timestamp : Nat
deriving Repr, DecidableEq

/-- One locally stored hole record.  `shots = none` models a record whose
`shots` field is missing or not an array (the
`!data || !data.shots || !Array.isArray(data.shots)` branch of
`validateHoleData`); a `null` hole entry behaves identically in every
function modelled here, so it is folded into the same case. -/
structure HoleData where
  par : Option Int := none
  distance : Option Int := none
  index : Option Int := none
  features : List String := []
  shots : Option (List Shot) := none
  poi : Option String := none
deriving Repr, DecidableEq

/-- The local hole collection: a JS object keyed by hole number, modelled as
an association list of its own properties. -/
abbrev HoleCollection := List (Nat × HoleData)

/-- First-match association lookup (JS property read `obj[k]`). -/
def alistGet {κ α : Type} [DecidableEq κ] : List (κ × α) → κ → Option α
  | [], _ => none
  | (k, v) :: rest, q => if k = q then some v else alistGet rest q

/-- JS property assignment `obj[k] = v`: replace the value of an existing
key in place, otherwise add the key. -/
def alistSet {κ α : Type} [DecidableEq κ] : List (κ × α) → κ → α → List (κ × α)
  | [], q, v => [(q, v)]
  | (k, w) :: rest, q, v =>
    if k = q then (q, v) :: rest else (k, w) :: alistSet rest q v

/-- `update ... .eq("id", id)`: apply `f` to every row whose key matches. -/
def updateRows {α : Type} (rows : List (String × α)) (id : String) (f : α → α) :
    List (String × α) :=
  rows.map (fun p => if p.1 = id then (p.1, f p.2) else p)

/-- One row of the remote `shots` table: the `hole_data` JSON column plus
`total_score`, keyed by `(round_id, hole_number)`. -/
structure ShotsRow where
  hole_data : HoleData
  total_score : Nat
deriving Repr, DecidableEq

/-- One row of the remote `rounds` table (the columns this code touches). -/
structure RoundRow where
  course_id : String
  profile_id : String
  selected_tee_name : Option String := none
  is_complete : Bool := false
  gross_shots : Option Nat := none
  score : Option Int := none
deriving Repr, DecidableEq

/-- One row of the remote `courses` table (only `par` is read). -/
structure CourseRow where
  par : Option Int := none
deriving Repr, DecidableEq

/-- The remote store. -/
structure RemoteDB where
  rounds : List (String × RoundRow)
  courses : List (String × CourseRow)
  shots : List ((String × Nat) × ShotsRow)
deriving Repr, DecidableEq

/-- JS error values reaching the orchestrator: a value carrying a `.message`
string (an `Error` or a supabase error object), or the `{step, originalError}`
wrapper thrown by every step function, which has no `.message` field. -/
inductive JsError where
  | errorObj (message : String)
  | stepWrapper (step : String) (originalError : JsError)
deriving Repr, DecidableEq

/-- JS read of `err.message`: `undefined` (here `none`) on the wrapper. -/
def JsError.jsMessage : JsError → Option String
  | .errorObj m => some m
  | .stepWrapper _ _ => none

/-- Auth-context snapshot captured by `getAuthContext` for telemetry. -/
structure AuthContext where
  hasValidToken : Bool
  tokenAge : Option Int := none
deriving Repr, DecidableEq

/-- Fault-injection environment: outcome of every external call the pipeline
makes.  `none` / `false` means the call succeeds. -/
structure Env where
  /-- Supabase error for the `shots` upsert of a given `(round_id, hole_number)`. -/
  upsertErr : String → Nat → Option String := fun _ _ => none
  /-- Supabase error for the `rounds` select in `completeRound`. -/
  roundsSelectErr : Option String := none
  /-- Supabase error for the `courses` select in `completeRound`. -/
  coursesSelectErr : Option String := none
  /-- Supabase error for the `shots` select in `completeRound`. -/
  shotsSelectErr : Option String := none
  /-- Supabase error for the `rounds` update in `completeRound`. -/
  roundsUpdateErr : Option String := none
  /-- Synchronous throw while starting the analysis invocation (message). -/
  insightsThrow : Option String := none
  /-- Outcome of the fire-and-forget analysis promise (logged only). -/
  insightsAsyncErr : Option String := none
  /-- `AsyncStorage.getItem` throws when reading the checkpoint key. -/
  checkpointReadErr : Bool := false
  /-- Auth snapshot returned by `getAuthContext`. -/
  auth : AuthContext := { hasValidToken := true }

/-- Progress record for one step inside a checkpoint:
`{status, timestamp, error?}` with status `pending`/`completed`/`failed`. -/
structure StepStatus where
  status : String
  timestamp : Nat
  error : Option String := none
deriving Repr, DecidableEq

/-- The `failureInfo` snapshot stored as a checkpoint `lastFailure`. -/
structure FailureInfo where
  step : String
  error : Option String
  timestamp : Nat
  authContext : AuthContext
deriving Repr, DecidableEq

/-- A persisted completion checkpoint. -/
structure Checkpoint where
  roundId : String
  startedAt : Nat
  stepProgress : List (String × StepStatus)
  lastFailure : Option FailureInfo := none
  expiresAt : Nat
deriving Repr, DecidableEq

/-- Content of the checkpoint storage cell: a record that parses back, or
stored text `JSON.parse` rejects. -/
inductive CheckBlob where
  | valid (c : Checkpoint)
  | corrupt
deriving Repr, DecidableEq

/-- Mutable world: local durable storage plus the remote store.  `now` is the
clock in milliseconds; it is held constant across one call. -/
structure World where
  now : Nat
  /-- `round_{id}_holes` cells, indexed by round id. -/
  localHoles : String → Option HoleCollection
  /-- The `currentRound` pointer cell. -/
  currentRound : Option String
  /-- `round_completion_checkpoint_{id}` cells, indexed by round id. -/
  checkpointSlot : String → Option CheckBlob
  db : RemoteDB

/-- `CHECKPOINT_EXPIRY_HOURS * 60 * 60 * 1000`. -/
def CHECKPOINT_EXPIRY_MS : Nat := 24 * 60 * 60 * 1000

/-- `saveCompletionCheckpoint`: replaces the whole checkpoint object; the
expiry is recomputed from the current time on every save; storage failures
are swallowed. -/
def saveCompletionCheckpoint (w : World) (roundId : String)
    (stepProgress : List (String × StepStatus)) (lastFailure : Option FailureInfo) :
    World :=
  { w with checkpointSlot := fun r =>
      if r = roundId then
        some (.valid { roundId := roundId, startedAt := w.now,
                       stepProgress := stepProgress, lastFailure := lastFailure,
                       expiresAt := w.now + CHECKPOINT_EXPIRY_MS })
      else w.checkpointSlot r }

/-- `loadCompletionCheckpoint`: returns `none` when the cell is absent, the
read throws, the text does not parse, or the checkpoint has expired (the
expired record is also deleted).  Total: it never throws. -/
def loadCompletionCheckpoint (env : Env) (w : World) (roundId : String) :
    Option Checkpoint × World :=
  if env.checkpointReadErr then (none, w)
  else
    match w.checkpointSlot roundId with
    | none => (none, w)
    | some .corrupt => (none, w)
    | some (.valid c) =>
      if c.expiresAt < w.now then
        (none, { w with checkpointSlot := fun r =>
                  if r = roundId then none else w.checkpointSlot r })
      else (some c, w)

/-- `clearCompletionCheckpoint`. -/
def clearCompletionCheckpoint (w : World) (roundId : String) : World :=
  { w with checkpointSlot := fun r =>
      if r = roundId then none else w.checkpointSlot r }

/-- The fixed pipeline step order of `detectResumePoint`. -/
def stepOrder : List String :=
  ["saveCurrentHole", "retrieveAllHoles", "validateData", "saveToDatabase",
   "markComplete", "generateInsights", "cleanup"]

/-- JS `Array.prototype.indexOf`: first index, `-1` when absent. -/
def jsIndexOf (l : List String) (s : String) : Int :=
  if s ∈ l then (l.indexOf s : Int) else -1

/-- Result of `detectResumePoint`. -/
inductive ResumePlan where
  | startFromBeginning
  | resume (resumeFromStep : String) (preserveError : Option FailureInfo)
      (checkpoint : Checkpoint)
deriving Repr, DecidableEq

/-- `detectResumePoint`: no (or expired) checkpoint starts from the
beginning; else resume at the first entry recorded `failed`, carrying
`lastFailure`; else resume after the last entry recorded `completed`;
else start from the beginning. -/
def detectResumePoint (env : Env) (w : World) (roundId : String) :
    ResumePlan × World :=
  let load := loadCompletionCheckpoint env w roundId
  match load.1 with
  | none => (.startFromBeginning, load.2)
  | some cp =>
    match cp.stepProgress.find? (fun p => p.2.status == "failed") with
    | some failedStep => (.resume failedStep.1 cp.lastFailure cp, load.2)
    | none =>
      match cp.stepProgress.reverse.find? (fun p => p.2.status == "completed") with
      | some lastCompleted =>
        let nextStepIndex : Int := jsIndexOf stepOrder lastCompleted.1 + 1
        if nextStepIndex < (stepOrder.length : Int) then
          (.resume ((stepOrder.get? nextStepIndex.toNat).getD "") none cp, load.2)
        else (.startFromBeginning, load.2)
      | none => (.startFromBeginning, load.2)

/-!  Sequential completion step functions. -/

/-- The result record one step returns, merged into the accumulator under the
step name.  Fields not produced by a step keep their defaults. -/
structure StepResult where
  success : Bool := true
  step : String := ""
  data : Option HoleCollection := none
  holeCount : Option Nat := none
  validHoles : List Nat := []
  errors : List String := []
  validHoleCount : Option Nat := none
  savedHoles : List Nat := []
  savedHoleCount : Option Nat := none
  triggered : Option Bool := none
  triggerError : Option String := none
  roundData : List RoundRow := []

/-- The orchestrator accumulator `results`, keyed by step name. -/
abbrev Results := String → Option StepResult

def setResult (res : Results) (name : String) (r : StepResult) : Results :=
  fun s => if s = name then some r else res s

/-- Step 1 `saveCurrentHoleData`: merge the in-progress hole into the stored
collection (`existingData[currentHole] = holeData`) and write it back. -/
def saveCurrentHoleData (w : World) (roundId : String) (currentHole : Nat)
    (holeData : HoleData) : Except JsError StepResult × World :=
  let existingData := (w.localHoles roundId).getD []
  let updated := alistSet existingData currentHole holeData
  (.ok { step := "saveCurrentHole" },
   { w with localHoles := fun r => if r = roundId then some updated else w.localHoles r })

/-- Step 2 `retrieveAllHoleData`: load the stored collection; throws the
wrapped error when the cell is absent. -/
def retrieveAllHoleData (w : World) (roundId : String) :
    Except JsError StepResult × World :=
  match w.localHoles roundId with
  | none =>
    (.error (.stepWrapper "retrieveAllHoles"
       (.errorObj "No hole data found in local storage")), w)
  | some storedData =>
    (.ok { step := "retrieveAllHoles", data := some storedData,
           holeCount := some storedData.length }, w)

/-- The validity test of `validateHoleData` for one hole entry: a shots array
is present and non-empty. -/
def holeEntryValid (d : HoleData) : Bool :=
  match d.shots with
  | none => false
  | some l => decide (0 < l.length)

/-- The `forEach` body of `validateHoleData`, accumulating
`(validHoles, errors)`. -/
def validateFold (acc : List Nat × List String) (p : Nat × HoleData) :
    List Nat × List String :=
  match p.2.shots with
  | none => (acc.1, acc.2 ++ [toString p.1 ++ ": Missing or invalid shots data"])
  | some l =>
    if l.length = 0 then (acc.1, acc.2 ++ [toString p.1 ++ ": No shots recorded"])
    else (acc.1 ++ [p.1], acc.2)

/-- Step 3 `validateHoleData`: collect hole numbers with non-empty shots and
an error line per rejected hole; throws (wrapped) when no valid hole
remains. -/
def validateHoleData (holeData : HoleCollection) : Except JsError StepResult :=
  let folded := holeData.foldl validateFold (([] : List Nat), ([] : List String))
  if folded.1.length = 0 then
    .error (.stepWrapper "validateData" (.errorObj "No valid holes found in data"))
  else
    .ok { step := "validateData", validHoles := folded.1, errors := folded.2,
          validHoleCount := some folded.1.length }

/-- `saveHoleData`: upsert one row of the remote `shots` table keyed by
`(round_id, hole_number)`; throws the supabase error when the env injects
one (in which case nothing is written). -/
def saveHoleData (env : Env) (w : World) (round_id : String) (hole_number : Nat)
    (hole_data : HoleData) (total_score : Nat) : Except JsError World :=
  match env.upsertErr round_id hole_number with
  | some e => .error (.errorObj e)
  | none =>
    .ok { w with db := { w.db with
      shots := alistSet w.db.shots (round_id, hole_number)
        { hole_data := hole_data, total_score := total_score } } }

/-- The `for (let holeNum = 1; holeNum <= 18; holeNum++)` body of
`saveHolesToDatabase`: skip holes with no data or empty shots, upsert the
rest with `total_score = shots.length`; an upsert failure aborts the loop
(earlier upserts persist). -/
def saveHolesLoop (env : Env) (roundId : String) (holeData : HoleCollection) :
    List Nat → World → List Nat → Except JsError (List Nat) × World
  | [], w, saved => (.ok saved, w)
  | n :: rest, w, saved =>
    match alistGet holeData n with
    | none => saveHolesLoop env roundId holeData rest w saved
    | some d =>
      match d.shots with
      | none => saveHolesLoop env roundId holeData rest w saved
      | some shotsList =>
        if shotsList.length = 0 then saveHolesLoop env roundId holeData rest w saved
        else
          match saveHoleData env w roundId n d shotsList.length with
          | .error e => (.error e, w)
          | .ok w2 => saveHolesLoop env roundId holeData rest w2 (saved ++ [n])

/-- Hole numbers `1..18`. -/
def holeNumbers : List Nat := List.range' 1 18

/-- Step 4 `saveHolesToDatabase`. -/
def saveHolesToDatabase (env : Env) (w : World) (roundId : String)
    (holeData : HoleCollection) : Except JsError StepResult × World :=
  match saveHolesLoop env roundId holeData holeNumbers w [] with
  | (.error e, w2) => (.error (.stepWrapper "saveToDatabase" e), w2)
  | (.ok saved, w2) =>
    (.ok { step := "saveToDatabase", savedHoles := saved,
           savedHoleCount := some saved.length }, w2)

/-- JS `x || d` over a nullable number (`null` and `0` are falsy). -/
def jsOrInt (x : Option Int) (d : Int) : Int :=
  match x with
  | none => d
  | some v => if v = 0 then d else v

/-- `grossShots` of `completeRound`: sum of `total_score || 0` over every
`shots` row of the round. -/
def grossShotsOf (shots : List ((String × Nat) × ShotsRow)) (round_id : String) :
    Nat :=
  (shots.filter (fun p => p.1.1 == round_id)).foldl
    (fun acc p => acc + p.2.total_score) 0

/-- `completeRound`: fetch the round row, the course par (`par || 72`), sum
the saved holes, and persist
`{is_complete := true, gross_shots, score := grossShots - coursePar}`.
Returns the updated store and the updated round rows (the `.select()`). -/
def completeRound (env : Env) (db : RemoteDB) (round_id : String) :
    Except JsError (RemoteDB × List RoundRow) :=
  match env.roundsSelectErr with
  | some e => .error (.errorObj e)
  | none =>
  match alistGet db.rounds round_id with
  | none => .error (.errorObj "Round row not found")
  | some roundData =>
  match env.coursesSelectErr with
  | some e => .error (.errorObj e)
  | none =>
  match alistGet db.courses roundData.course_id with
  | none => .error (.errorObj "Course row not found")
  | some courseData =>
  let coursePar : Int := jsOrInt courseData.par 72
  match env.shotsSelectErr with
  | some e => .error (.errorObj e)
  | none =>
  let grossShots : Nat := grossShotsOf db.shots round_id
  let score : Int := (grossShots : Int) - coursePar
  match env.roundsUpdateErr with
  | some e => .error (.errorObj e)
  | none =>
  let newRounds := updateRows db.rounds round_id (fun r =>
    { r with is_complete := true, gross_shots := some grossShots,
             score := some score })
  .ok ({ db with rounds := newRounds },
       (newRounds.filter (fun p => p.1 == round_id)).map Prod.snd)

/-- Step 5 `markRoundComplete`: delegates to `completeRound`, wrapping any
failure. -/
def markRoundComplete (env : Env) (w : World) (roundId : String) :
    Except JsError StepResult × World :=
  match completeRound env w.db roundId with
  | .error e => (.error (.stepWrapper "markComplete" e), w)
  | .ok (db2, rows) =>
    (.ok { step := "markComplete", roundData := rows }, { w with db := db2 })

/-- Step 6 `generateInsights`: the analysis invocation is fire-and-forget —
its promise outcome (`env.insightsAsyncErr`) is only logged, and a
synchronous throw while starting it (`env.insightsThrow`) lands in the
`catch`, which still returns success with `triggered := false`.  This step
never reports failure. -/
def generateInsights (env : Env) (_userId : String) (w : World)
    (_roundId : String) : Except JsError StepResult × World :=
  match env.insightsThrow with
  | some msg =>
    (.ok { step := "generateInsights", triggered := some false,
           triggerError := some msg }, w)
  | none =>
    (.ok { step := "generateInsights", triggered := some true }, w)

/-- Step 7 `cleanupLocalStorage`: remove the hole collection, the
`currentRound` pointer and the checkpoint. -/
def cleanupLocalStorage (w : World) (roundId : String) :
    Except JsError StepResult × World :=
  let w1 := { w with
    localHoles := fun r => if r = roundId then none else w.localHoles r,
    currentRound := none }
  (.ok { step := "cleanup" }, clearCompletionCheckpoint w1 roundId)

/-!  The sequential orchestrator. -/

/-- One entry of the `completionSteps` pipeline definition. -/
structure StepEntry where
  name : String
  fn : Results → World → Except JsError StepResult × World

/-- The TypeError raised by reading `.data` off an `undefined` accumulator
entry (`previousResults.retrieveAllHoles.data` after a resume). -/
def typeErrorUndefinedData : JsError :=
  .errorObj "Cannot read properties of undefined"

/-- Pipeline entry 1. -/
def saveCurrentHoleStep (roundId : String) (currentHole : Nat)
    (holeData : HoleData) : StepEntry :=
  { name := "saveCurrentHole",
    fn := fun _ w => saveCurrentHoleData w roundId currentHole holeData }

/-- Pipeline entry 2. -/
def retrieveAllHolesStep (roundId : String) : StepEntry :=
  { name := "retrieveAllHoles",
    fn := fun _ w => retrieveAllHoleData w roundId }

/-- Pipeline entry 3: reads `previousResults.retrieveAllHoles.data` from the
in-memory accumulator of the current call only. -/
def validateDataStep : StepEntry :=
  { name := "validateData",
    fn := fun previousResults w =>
      match previousResults "retrieveAllHoles" with
      | none => (.error typeErrorUndefinedData, w)
      | some r =>
        match r.data with
        | none =>
          (.error (.stepWrapper "validateData"
             (.errorObj "holeData is not an object")), w)
        | some d => (validateHoleData d, w) }

/-- Pipeline entry 4: also reads `previousResults.retrieveAllHoles.data` from
the in-memory accumulator of the current call only. -/
def saveToDatabaseStep (env : Env) (roundId : String) : StepEntry :=
  { name := "saveToDatabase",
    fn := fun previousResults w =>
      match previousResults "retrieveAllHoles" with
      | none => (.error typeErrorUndefinedData, w)
      | some r =>
        match r.data with
        | none =>
          (.error (.stepWrapper "saveToDatabase"
             (.errorObj "holeData is not an object")), w)
        | some d => saveHolesToDatabase env w roundId d }

/-- Pipeline entry 5. -/
def markCompleteStep (env : Env) (roundId : String) : StepEntry :=
  { name := "markComplete",
    fn := fun _ w => markRoundComplete env w roundId }

/-- Pipeline entry 6. -/
def generateInsightsStep (env : Env) (userId roundId : String) : StepEntry :=
  { name := "generateInsights",
    fn := fun _ w => generateInsights env userId w roundId }

/-- Pipeline entry 7. -/
def cleanupStep (roundId : String) : StepEntry :=
  { name := "cleanup",
    fn := fun _ w => cleanupLocalStorage w roundId }

/-- The `completionSteps` pipeline definition. -/
def completionSteps (env : Env) (roundId : String) (currentHole : Nat)
    (holeData : HoleData) (userId : String) : List StepEntry :=
  [ saveCurrentHoleStep roundId currentHole holeData,
    retrieveAllHolesStep roundId,
    validateDataStep,
    saveToDatabaseStep env roundId,
    markCompleteStep env roundId,
    generateInsightsStep env userId roundId,
    cleanupStep roundId ]

/-- The structured failure the orchestrator rethrows:
`{step, error, checkpoint, canRetry: true}`. -/
structure RunFailure where
  step : String
  error : JsError
  checkpoint : List (String × StepStatus)
  canRetry : Bool
deriving Repr, DecidableEq

/-- The success record `completeRoundSequential` resolves with. -/
structure RunSuccess where
  success : Bool
  results : Results
  resumedFromCheckpoint : Bool

/-- The orchestrator loop: skip steps already `completed` in the checkpoint,
save a `pending` checkpoint before a step and a `completed` one after it;
on a throw, save a `failed` checkpoint carrying the message read off the
error and the auth snapshot, and abort with the structured failure. -/
def runSteps (env : Env) (roundId : String) :
    List StepEntry → Results → List (String × StepStatus) → World →
    Except RunFailure (Results × List (String × StepStatus)) × World
  | [], results, progress, w => (.ok (results, progress), w)
  | step :: rest, results, progress, w =>
    if (alistGet progress step.name).map StepStatus.status = some "completed" then
      runSteps env roundId rest results progress w
    else
      let progress1 := alistSet progress step.name
        { status := "pending", timestamp := w.now }
      let w1 := saveCompletionCheckpoint w roundId progress1 none
      match step.fn results w1 with
      | (.ok result, w2) =>
        let results2 := setResult results step.name result
        let progress2 := alistSet progress1 step.name
          { status := "completed", timestamp := w2.now }
        let w3 := saveCompletionCheckpoint w2 roundId progress2 none
        runSteps env roundId rest results2 progress2 w3
      | (.error err, w2) =>
        let progress2 := alistSet progress1 step.name
          { status := "failed", timestamp := w2.now, error := err.jsMessage }
        let failureInfo : FailureInfo :=
          { step := step.name, error := err.jsMessage, timestamp := w2.now,
            authContext := env.auth }
        let w3 := saveCompletionCheckpoint w2 roundId progress2 (some failureInfo)
        (.error { step := step.name, error := err, checkpoint := progress2,
                  canRetry := true }, w3)

/-- `completeRoundSequential`: plan the resume point, seed the progress map
from the checkpoint (the in-memory `results` accumulator always starts
empty), run the remaining steps, and clear the checkpoint on full success. -/
def completeRoundSequential (env : Env) (w0 : World) (roundId : String)
    (currentHole : Nat) (holeData : HoleData) (userId : String) :
    Except RunFailure RunSuccess × World :=
  let det := detectResumePoint env w0 roundId
  let steps := completionSteps env roundId currentHole holeData userId
  let currentStepProgress :=
    match det.1 with
    | .resume _ _ cp => cp.stepProgress
    | .startFromBeginning => []
  let startIndex : Nat :=
    match det.1 with
    | .resume s _ _ => (steps.findIdx? (fun st => st.name == s)).getD 0
    | .startFromBeginning => 0
  let resumed : Bool :=
    match det.1 with
    | .resume _ _ _ => true
    | .startFromBeginning => false
  match runSteps env roundId (steps.drop startIndex) (fun _ => none)
      currentStepProgress det.2 with
  | (.error f, w2) => (.error f, w2)
  | (.ok (results, _), w2) =>
    (.ok { success := true, results := results, resumedFromCheckpoint := resumed },
     clearCompletionCheckpoint w2 roundId)

/-- The progress map a `completeRoundSequential` call starts from (the
checkpoint's map on resume, empty otherwise). -/
def initialProgress (env : Env) (w0 : World) (roundId : String) :
    List (String × StepStatus) :=
  match (detectResumePoint env w0 roundId).1 with
  | .resume _ _ cp => cp.stepProgress
  | .startFromBeginning => []

/-- The index `completeRoundSequential` starts executing from. -/
def resumeStartIndex (env : Env) (w0 : World) (roundId : String)
    (steps : List StepEntry) : Nat :=
  match (detectResumePoint env w0 roundId).1 with
  | .resume s _ _ => (steps.findIdx? (fun st => st.name == s)).getD 0
  | .startFromBeginning => 0

/-- Whether the run counts as resumed from a checkpoint. -/
def resumedFlag (env : Env) (w0 : World) (roundId : String) : Bool :=
  match (detectResumePoint env w0 roundId).1 with
  | .resume _ _ _ => true
  | .startFromBeginning => false

/-- A `failed` checkpoint entry carrying timestamp `ts` and the recorded
message `msg`. -/
def failedEntry (ts : Nat) (msg : Option String) : StepStatus :=
  { status := "failed", timestamp := ts, error := msg }

/-- The `failureInfo` record written beside a failed checkpoint. -/
def failureRecord (st : String) (msg : Option String) (ts : Nat)
    (a : AuthContext) : FailureInfo :=
  { step := st, error := msg, timestamp := ts, authContext := a }

/-- A retryable structured failure `{step, error, checkpoint, canRetry: true}`. -/
def mkRunFailure (st : String) (e : JsError)
    (cp : List (String × StepStatus)) : RunFailure :=
  { step := st, error := e, checkpoint := cp, canRetry := true }

/-- The progress map stored by the `envBoom` counterexample run when its
`saveToDatabase` upsert fails. -/
def cpBoomProgress : List (String × StepStatus) :=
  [("saveCurrentHole", { status := "completed", timestamp := 1000 }),
   ("retrieveAllHoles", { status := "completed", timestamp := 1000 }),
   ("validateData", { status := "completed", timestamp := 1000 }),
   ("saveToDatabase", { status := "failed", timestamp := 1000, error := none })]

/-- The progress map stored by the resumed run of the C2 scenario. -/
def cpResumeFailedProgress : List (String × StepStatus) :=
  [("saveCurrentHole", { status := "completed", timestamp := 500 }),
   ("retrieveAllHoles", { status := "completed", timestamp := 501 }),
   ("validateData", { status := "completed", timestamp := 502 }),
   ("saveToDatabase",
     failedEntry 1000 (some "Cannot read properties of undefined"))]

/-- The structured failure thrown by the `envBoom` counterexample run. -/
def fBoom : RunFailure :=
  { step := "saveToDatabase",
    error := .stepWrapper "saveToDatabase" (.errorObj "boom"),
    checkpoint := cpBoomProgress, canRetry := true }

/-!  Shot bookkeeping of `TrackerScreen.js`. -/

/-- The per-hole tracker state: the ordered shots array plus the
`shotCounts[type][outcome]` tallies. -/
structure HoleState where
  shots : List Shot
  shotCounts : String → String → Nat

def shotMatches (t o : String) (s : Shot) : Bool :=
  s.type == t && s.result == o

/-- `addShot`: push `{type, result, timestamp}` and bump the tally. -/
def addShot (t o : String) (ts : Nat) (h : HoleState) : HoleState :=
  { shots := h.shots ++ [{ type := t, result := o, timestamp := ts }],
    shotCounts := fun t2 o2 =>
      if t2 = t ∧ o2 = o then h.shotCounts t2 o2 + 1 else h.shotCounts t2 o2 }

/-- `removeShot`: no-op when the tally is zero; otherwise find the last
matching shot via `reverse().findIndex`, splice it out and decrement the
tally (no-op if no shot matches despite a positive tally). -/
def removeShot (t o : String) (h : HoleState) : HoleState :=
  if h.shotCounts t o = 0 then h
  else
    match h.shots.reverse.findIdx? (shotMatches t o) with
    | none => h
    | some ri =>
      let actualIndex := h.shots.length - 1 - ri
      { shots := h.shots.eraseIdx actualIndex,
        shotCounts := fun t2 o2 =>
          if t2 = t ∧ o2 = o then h.shotCounts t2 o2 - 1 else h.shotCounts t2 o2 }

/-!  Specification-side helper definitions used by the theorems below. -/

/-- The hole numbers `validateHoleData` accepts, in entry order. -/
def validKeys (coll : HoleCollection) : List Nat :=
  (coll.filter (fun p => holeEntryValid p.2)).map Prod.fst

/-- Whether `saveHolesToDatabase` writes hole `n` of `coll`. -/
def holeValidAt (coll : HoleCollection) (n : Nat) : Bool :=
  match alistGet coll n with
  | some d => holeEntryValid d
  | none => false

/-- The row `saveHolesToDatabase` writes for hole `n` (when it writes one). -/
def savedRowAt (coll : HoleCollection) (n : Nat) : Option ShotsRow :=
  match alistGet coll n with
  | some d =>
    match d.shots with
    | some l => if l.length = 0 then none else some { hole_data := d, total_score := l.length }
    | none => none
  | none => none

/-- The round-row update `completeRound` persists. -/
def completeRoundPatch (gross : Nat) (par : Int) (r : RoundRow) : RoundRow :=
  { r with is_complete := true, gross_shots := some gross,
           score := some ((gross : Int) - par) }

/-- The `rounds` table after `completeRound` succeeds. -/
def completedRounds (db : RemoteDB) (round_id : String) (par : Int) :
    List (String × RoundRow) :=
  updateRows db.rounds round_id
    (completeRoundPatch (grossShotsOf db.shots round_id) par)

/-- The hole collection step 1 stores: the previously stored collection (or
`{}`) with the in-progress hole merged in. -/
def mergedColl (w0 : World) (roundId : String) (currentHole : Nat)
    (hd : HoleData) : HoleCollection :=
  alistSet ((w0.localHoles roundId).getD []) currentHole hd

/-- A checkpoint progress map whose entry order follows the pipeline order
(the invariant the orchestrator maintains, since it records steps in
execution order). -/
def pipelineOrdered (prog : List (String × StepStatus)) : Prop :=
  (prog.map Prod.fst).Sublist stepOrder

/-- The recorded status of a step name inside a progress map. -/
def statusIn (prog : List (String × StepStatus)) (name : String) : Option String :=
  (alistGet prog name).map StepStatus.status

/-- The step result `retrieveAllHoleData` produces for a stored collection. -/
def retrieveResultFor (coll : HoleCollection) : StepResult :=
  { step := "retrieveAllHoles", data := some coll, holeCount := some coll.length }

/-- The step result `validateHoleData` produces when it succeeds. -/
def validateResultFor (coll : HoleCollection) : StepResult :=
  { step := "validateData", validHoles := validKeys coll,
    errors := (coll.foldl validateFold ([], [])).2,
    validHoleCount := some (validKeys coll).length }

/-- The step result `saveHolesToDatabase` produces when it succeeds. -/
def savedResultFor (saved : List Nat) : StepResult :=
  { step := "saveToDatabase", savedHoles := saved,
    savedHoleCount := some saved.length }

/-!  Concrete fixtures used by witnesses and counterexamples. -/

def tShot : Shot := { type := "tee_shot", result := "good", timestamp := 1 }

def holeWithShots (k : Nat) : HoleData :=
  { par := some 4, shots := some (List.replicate k tShot) }

/-- Holes 1..3 played with 4, 5 and 3 shots. -/
def collThree : HoleCollection :=
  [(1, holeWithShots 4), (2, holeWithShots 5), (3, holeWithShots 3)]

/-- All 18 holes present with empty shots arrays. -/
def collEmpty18 : HoleCollection :=
  (List.range' 1 18).map (fun n => (n, ({ shots := some [] } : HoleData)))

def envOK : Env := {}

def baseDB : RemoteDB :=
  { rounds := [("r1", { course_id := "c1", profile_id := "u1" })],
    courses := [("c1", { par := some 72 })],
    shots := [] }

def wBase : World :=
  { now := 1000,
    localHoles := fun r => if r = "r1" then some collThree else none,
    currentRound := some "r1",
    checkpointSlot := fun _ => none,
    db := baseDB }

def rr9 : RoundRow := { course_id := "c9", profile_id := "u9" }

def cr72 : CourseRow := { par := some 72 }

/-- A store whose per-hole stroke totals for round `r9` sum to 85. -/
def db85 : RemoteDB :=
  { rounds := [("r9", rr9)],
    courses := [("c9", cr72)],
    shots := [(("r9", 1), { hole_data := holeWithShots 40, total_score := 40 }),
              (("r9", 2), { hole_data := holeWithShots 45, total_score := 45 })] }

def cpOld : Checkpoint :=
  { roundId := "r1", startedAt := 100,
    stepProgress := [("saveCurrentHole", { status := "completed", timestamp := 100 })],
    lastFailure := none, expiresAt := 500 }

/-- A world whose only checkpoint for `r1` expired at 500 (now = 1000). -/
def wExpired : World :=
  { wBase with checkpointSlot := fun r => if r = "r1" then some (.valid cpOld) else none }

/-- A world whose stored checkpoint text for `r1` does not parse. -/
def wCorrupt : World :=
  { wBase with checkpointSlot := fun r => if r = "r1" then some .corrupt else none }

def envReadErr : Env := { checkpointReadErr := true }

/-- Every remote fault off, but the analysis trigger forced to fail both
synchronously and asynchronously. -/
def envIns : Env := { insightsThrow := some "kaput", insightsAsyncErr := some "failed" }

/-- The hole collection for round `r2` holds 18 holes with no shots. -/
def wEmpty : World :=
  { wBase with localHoles := fun r => if r = "r2" then some collEmpty18 else none }

/-- The `shots` upsert for hole 2 fails with message `boom`. -/
def envBoom : Env := { upsertErr := fun _ n => if n = 2 then some "boom" else none }

/-- A checkpoint recording steps 1..3 completed and `saveToDatabase` failed. -/
def cpResume : Checkpoint :=
  { roundId := "r1", startedAt := 500,
    stepProgress :=
      [("saveCurrentHole", { status := "completed", timestamp := 500 }),
       ("retrieveAllHoles", { status := "completed", timestamp := 501 }),
       ("validateData", { status := "completed", timestamp := 502 }),
       ("saveToDatabase", { status := "failed", timestamp := 503, error := none })],
    lastFailure := some { step := "saveToDatabase", error := none, timestamp := 503,
                          authContext := { hasValidToken := true } },
    expiresAt := 90000000 }

def wResume : World :=
  { wBase with checkpointSlot := fun r =>
      if r = "r1" then some (.valid cpResume) else none }

/-- A checkpoint whose `validateData` entry is failed. -/
def cpFailedVD : Checkpoint :=
  { roundId := "r1", startedAt := 500,
    stepProgress :=
      [("saveCurrentHole", { status := "completed", timestamp := 500 }),
       ("retrieveAllHoles", { status := "completed", timestamp := 501 }),
       ("validateData", { status := "failed", timestamp := 502, error := none })],
    lastFailure := some { step := "validateData", error := none, timestamp := 502,
                          authContext := { hasValidToken := true } },
    expiresAt := 90000000 }

def wFailedVD : World :=
  { wBase with checkpointSlot := fun r =>
      if r = "r1" then some (.valid cpFailedVD) else none }

/-- A checkpoint recording only steps 1 and 2 completed. -/
def cpCompleted2 : Checkpoint :=
  { roundId := "r1", startedAt := 500,
    stepProgress :=
      [("saveCurrentHole", { status := "completed", timestamp := 500 }),
       ("retrieveAllHoles", { status := "completed", timestamp := 501 })],
    lastFailure := none, expiresAt := 90000000 }

def wCompleted2 : World :=
  { wBase with checkpointSlot := fun r =>
      if r = "r1" then some (.valid cpCompleted2) else none }

/-- A checkpoint whose last completed step is the final step `cleanup`. -/
def cpDone : Checkpoint :=
  { roundId := "r1", startedAt := 500,
    stepProgress := [("cleanup", { status := "completed", timestamp := 500 })],
    lastFailure := none, expiresAt := 90000000 }

def wDone : World :=
  { wBase with checkpointSlot := fun r =>
      if r = "r1" then some (.valid cpDone) else none }

def sampleShots : List Shot :=
  [{ type := "tee_shot", result := "good", timestamp := 1 },
   { type := "putt", result := "good", timestamp := 2 },
   { type := "tee_shot", result := "good", timestamp := 3 },
   { type := "tee_shot", result := "bad", timestamp := 4 }]

def hsSample : HoleState :=
  { shots := sampleShots,
    shotCounts := fun t2 o2 => (sampleShots.filter (shotMatches t2 o2)).length }

/-!  Basic lemmas about the association-list operations. -/

theorem alistGet_set_self {κ α : Type} [DecidableEq κ] (l : List (κ × α)) (k : κ)
    (v : α) : alistGet (alistSet l k v) k = some v := by
  induction l with
  | nil => simp [alistGet, alistSet]
  | cons p rest ih =>
    by_cases h : p.1 = k
    · simp [alistSet, alistGet, h]
    · simpa [alistSet, alistGet, h] using ih

theorem alistGet_set_ne {κ α : Type} [DecidableEq κ] (l : List (κ × α)) (k q : κ)
    (v : α) (h : k ≠ q) : alistGet (alistSet l k v) q = alistGet l q := by
  induction l with
  | nil => simp [alistGet, alistSet, h, Ne.symm h]
  | cons p rest ih =>
    by_cases hp : p.1 = k
    · simp [alistSet, alistGet, hp, h, Ne.symm h]
    · by_cases hq : p.1 = q <;> simp [alistSet, alistGet, hp, hq, ih, Ne.symm h]

theorem alistSet_set_same {κ α : Type} [DecidableEq κ] (l : List (κ × α)) (k : κ)
    (v v2 : α) : alistSet (alistSet l k v) k v2 = alistSet l k v2 := by
  induction l with
  | nil => simp [alistSet]
  | cons p rest ih =>
    by_cases hp : p.1 = k
    · simp [alistSet, hp]
    · simp [alistSet, hp, ih]

theorem alistGet_updateRows {α : Type} (rows : List (String × α)) (id q : String)
    (f : α → α) :
    alistGet (updateRows rows id f) q =
      if q = id then (alistGet rows q).map f else alistGet rows q := by
  induction rows with
  | nil => simp [alistGet, updateRows]
  | cons p rest ih =>
    simp only [updateRows, List.map_cons] at ih ⊢
    by_cases hp : p.1 = id
    · rw [if_pos hp]
      by_cases hq : p.1 = q
      · have hqid : q = id := hq ▸ hp
        simp [alistGet, hp, hq, hqid]
      · have hqid : ¬q = id := fun hh => hq (hp.trans hh.symm)
        have hidq : ¬id = q := fun hh => hqid hh.symm
        simp [alistGet, hp, hq, hqid, hidq, ih]
    · rw [if_neg hp]
      by_cases hq : p.1 = q
      · have hqid : ¬q = id := fun hh => hp (hq.trans hh)
        simp [alistGet, hq, hqid]
      · simp [alistGet, hq, ih]

/-!  World bookkeeping lemmas. -/

@[simp] theorem saveCP_now (w : World) (r : String) (p : List (String × StepStatus))
    (f : Option FailureInfo) : (saveCompletionCheckpoint w r p f).now = w.now := rfl

@[simp] theorem saveCP_localHoles (w : World) (r : String)
    (p : List (String × StepStatus)) (f : Option FailureInfo) :
    (saveCompletionCheckpoint w r p f).localHoles = w.localHoles := rfl

@[simp] theorem saveCP_currentRound (w : World) (r : String)
    (p : List (String × StepStatus)) (f : Option FailureInfo) :
    (saveCompletionCheckpoint w r p f).currentRound = w.currentRound := rfl

@[simp] theorem saveCP_db (w : World) (r : String) (p : List (String × StepStatus))
    (f : Option FailureInfo) : (saveCompletionCheckpoint w r p f).db = w.db := rfl

@[simp] theorem saveCP_slot_self (w : World) (r : String)
    (p : List (String × StepStatus)) (f : Option FailureInfo) :
    (saveCompletionCheckpoint w r p f).checkpointSlot r =
      some (.valid { roundId := r, startedAt := w.now, stepProgress := p,
                     lastFailure := f, expiresAt := w.now + CHECKPOINT_EXPIRY_MS }) := by
  simp [saveCompletionCheckpoint]

@[simp] theorem clearCP_now (w : World) (r : String) :
    (clearCompletionCheckpoint w r).now = w.now := rfl

@[simp] theorem clearCP_localHoles (w : World) (r : String) :
    (clearCompletionCheckpoint w r).localHoles = w.localHoles := rfl

@[simp] theorem clearCP_currentRound (w : World) (r : String) :
    (clearCompletionCheckpoint w r).currentRound = w.currentRound := rfl

@[simp] theorem clearCP_db (w : World) (r : String) :
    (clearCompletionCheckpoint w r).db = w.db := rfl

@[simp] theorem clearCP_slot_self (w : World) (r : String) :
    (clearCompletionCheckpoint w r).checkpointSlot r = none := by
  simp [clearCompletionCheckpoint]

/-!  Characterization of `validateHoleData`. -/

theorem validateFold_fst (coll : HoleCollection) :
    ∀ acc : List Nat × List String,
      (coll.foldl validateFold acc).1 = acc.1 ++ validKeys coll := by
  induction coll with
  | nil => intro acc; simp [validKeys]
  | cons p rest ih =>
    intro acc
    rw [List.foldl_cons]
    match hs : p.2.shots with
    | none =>
      have hv : holeEntryValid p.2 = false := by simp [holeEntryValid, hs]
      rw [show validateFold acc p =
          (acc.1, acc.2 ++ [toString p.1 ++ ": Missing or invalid shots data"]) by
        simp [validateFold, hs]]
      rw [ih]
      simp [validKeys, List.filter_cons, hv]
    | some l =>
      by_cases hl : l.length = 0
      · have hv : holeEntryValid p.2 = false := by simp [holeEntryValid, hs, hl]
        rw [show validateFold acc p =
            (acc.1, acc.2 ++ [toString p.1 ++ ": No shots recorded"]) by
          simp [validateFold, hs, hl]]
        rw [ih]
        simp [validKeys, List.filter_cons, hv]
      · have hv : holeEntryValid p.2 = true := by
          simp [holeEntryValid, hs, Nat.pos_of_ne_zero hl]
        rw [show validateFold acc p = (acc.1 ++ [p.1], acc.2) by
          simp [validateFold, hs, hl]]
        rw [ih]
        simp [validKeys, List.filter_cons, hv]

theorem validateHoleData_ok (coll : HoleCollection) (h : validKeys coll ≠ []) :
    validateHoleData coll = .ok (validateResultFor coll) := by
  unfold validateResultFor
  have hfold := validateFold_fst coll ([], [])
  simp only [List.nil_append] at hfold
  unfold validateHoleData
  simp only [hfold]
  rw [if_neg (by simpa using h)]

theorem validateHoleData_error (coll : HoleCollection) (h : validKeys coll = []) :
    validateHoleData coll =
      .error (.stepWrapper "validateData" (.errorObj "No valid holes found in data")) := by
  have hfold := validateFold_fst coll ([], [])
  simp only [List.nil_append] at hfold
  unfold validateHoleData
  simp only [hfold, h]
  simp

/-!  Characterization of `saveHolesLoop`. -/

theorem saveHolesLoop_ok (env : Env) (roundId : String) (coll : HoleCollection)
    (hup : ∀ n, env.upsertErr roundId n = none) :
    ∀ (ns : List Nat) (w : World) (saved : List Nat),
      ∃ (saved2 : List Nat) (w2 : World),
        saveHolesLoop env roundId coll ns w saved = (.ok saved2, w2) ∧
        w2.now = w.now ∧ w2.localHoles = w.localHoles ∧
        w2.currentRound = w.currentRound ∧
        w2.checkpointSlot = w.checkpointSlot ∧
        w2.db.rounds = w.db.rounds ∧ w2.db.courses = w.db.courses ∧
        (∀ k : String × Nat,
          alistGet w2.db.shots k =
            if k.1 = roundId ∧ k.2 ∈ ns ∧ holeValidAt coll k.2 = true
            then savedRowAt coll k.2
            else alistGet w.db.shots k) := by
  intro ns
  induction ns with
  | nil =>
    intro w saved
    exact ⟨saved, w, rfl, rfl, rfl, rfl, rfl, rfl, rfl, fun k => by simp⟩
  | cons n rest ih =>
    intro w saved
    have hformula :
        ∀ (w2 : World),
          (∀ k : String × Nat,
            alistGet w2.db.shots k =
              if k.1 = roundId ∧ k.2 ∈ rest ∧ holeValidAt coll k.2 = true
              then savedRowAt coll k.2
              else alistGet w.db.shots k) →
          holeValidAt coll n = false →
          (∀ k : String × Nat,
            alistGet w2.db.shots k =
              if k.1 = roundId ∧ k.2 ∈ n :: rest ∧ holeValidAt coll k.2 = true
              then savedRowAt coll k.2
              else alistGet w.db.shots k) := by
      intro w2 hf hinvalid k
      rw [hf k]
      by_cases hmem : k.2 ∈ rest
      · simp [hmem, List.mem_cons]
      · by_cases hkn : k.2 = n
        · simp [hmem, hkn, hinvalid]
        · simp [hmem, hkn]
    match hd : alistGet coll n with
    | none =>
      have hinvalid : holeValidAt coll n = false := by simp [holeValidAt, hd]
      rcases ih w saved with ⟨saved2, w2, heq, h1, h2, h3, h4, h5, h6, h7⟩
      exact ⟨saved2, w2, by simpa [saveHolesLoop, hd] using heq,
        h1, h2, h3, h4, h5, h6, hformula w2 h7 hinvalid⟩
    | some d =>
      match hs : d.shots with
      | none =>
        have hinvalid : holeValidAt coll n = false := by
          simp [holeValidAt, hd, holeEntryValid, hs]
        rcases ih w saved with ⟨saved2, w2, heq, h1, h2, h3, h4, h5, h6, h7⟩
        exact ⟨saved2, w2, by simpa [saveHolesLoop, hd, hs] using heq,
          h1, h2, h3, h4, h5, h6, hformula w2 h7 hinvalid⟩
      | some shotsList =>
        by_cases hl : shotsList.length = 0
        · have hinvalid : holeValidAt coll n = false := by
            simp [holeValidAt, hd, holeEntryValid, hs, hl]
          rcases ih w saved with ⟨saved2, w2, heq, h1, h2, h3, h4, h5, h6, h7⟩
          exact ⟨saved2, w2, by simpa [saveHolesLoop, hd, hs, hl] using heq,
            h1, h2, h3, h4, h5, h6, hformula w2 h7 hinvalid⟩
        · -- the hole is written
          have hvalid : holeValidAt coll n = true := by
            simp [holeValidAt, hd, holeEntryValid, hs, Nat.pos_of_ne_zero hl]
          have hrow : savedRowAt coll n =
              some { hole_data := d, total_score := shotsList.length } := by
            simp [savedRowAt, hd, hs, hl]
          set wr : World := { w with db := { w.db with
            shots := alistSet w.db.shots (roundId, n)
              { hole_data := d, total_score := shotsList.length } } } with hwr
          have hsave : saveHoleData env w roundId n d shotsList.length = .ok wr := by
            simp [saveHoleData, hup n, hwr]
          rcases ih wr (saved ++ [n]) with ⟨saved2, w2, heq, h1, h2, h3, h4, h5, h6, h7⟩
          refine ⟨saved2, w2, ?_, h1, h2, h3, h4, h5, h6, ?_⟩
          · simpa [saveHolesLoop, hd, hs, hl, hsave] using heq
          · intro k
            rw [h7 k]
            by_cases hmem : k.1 = roundId ∧ k.2 ∈ rest ∧ holeValidAt coll k.2 = true
            · rw [if_pos hmem, if_pos ⟨hmem.1, List.mem_cons_of_mem n hmem.2.1, hmem.2.2⟩]
            · rw [if_neg hmem]
              by_cases hkn : k = (roundId, n)
              · have : alistGet wr.db.shots k =
                    some { hole_data := d, total_score := shotsList.length } := by
                  rw [hkn]; exact alistGet_set_self _ _ _
                rw [this, if_pos ⟨by rw [hkn], by rw [hkn]; exact List.mem_cons_self n rest,
                    by rw [hkn]; exact hvalid⟩, hkn, hrow]
              · have : alistGet wr.db.shots k = alistGet w.db.shots k := by
                  exact alistGet_set_ne _ _ _ _ (fun hh => hkn hh.symm)
                rw [this, if_neg]
                rintro ⟨hk1, hk2, hk3⟩
                rcases List.mem_cons.mp hk2 with hk2a | hk2b
                · rcases k with ⟨ka, kb⟩
                  simp only at hk1 hk2a
                  subst hk1
                  subst hk2a
                  exact hkn rfl
                · exact hmem ⟨hk1, hk2b, hk3⟩

theorem setResult_self (res : Results) (k : String) (r : StepResult) :
    setResult res k r k = some r := by simp [setResult]

theorem setResult_ne (res : Results) (k q : String) (r : StepResult) (h : q ≠ k) :
    setResult res k r q = res q := by simp [setResult, h]

theorem statusIn_set_ne (prog : List (String × StepStatus)) (k q : String)
    (v : StepStatus) (h : k ≠ q) :
    statusIn (alistSet prog k v) q = statusIn prog q := by
  simp [statusIn, alistGet_set_ne _ _ _ _ h]

/-!  Characterization of `completeRound`. -/

theorem completeRound_ok (env : Env) (db : RemoteDB) (round_id : String)
    (rr : RoundRow) (cr : CourseRow)
    (h1 : env.roundsSelectErr = none) (h2 : env.coursesSelectErr = none)
    (h3 : env.shotsSelectErr = none) (h4 : env.roundsUpdateErr = none)
    (hr : alistGet db.rounds round_id = some rr)
    (hc : alistGet db.courses rr.course_id = some cr) :
    completeRound env db round_id = .ok
      ({ db with rounds := completedRounds db round_id (jsOrInt cr.par 72) },
       ((completedRounds db round_id (jsOrInt cr.par 72)).filter
         (fun p => p.1 == round_id)).map Prod.snd) := by
  unfold completeRound
  rw [h1, h2, h3, h4, hr]
  simp only [hc]
  rfl

theorem validKeys_ne_nil_iff (coll : HoleCollection) :
    validKeys coll ≠ [] ↔ ∃ p ∈ coll, holeEntryValid p.2 = true := by
  constructor
  · intro h
    have h2 : coll.filter (fun p => holeEntryValid p.2) ≠ [] := by
      intro hnil
      exact h (by simp [validKeys, hnil])
    rcases List.exists_mem_of_ne_nil _ h2 with ⟨q, hq⟩
    exact ⟨q, (List.mem_filter.mp hq).1, (List.mem_filter.mp hq).2⟩
  · rintro ⟨p, hp, hv⟩ hnil
    have hmem : p ∈ coll.filter (fun p => holeEntryValid p.2) :=
      List.mem_filter.mpr ⟨hp, hv⟩
    have : (p : Nat × HoleData).1 ∈ validKeys coll := List.mem_map_of_mem _ hmem
    simp [hnil] at this

/-!  Step-name projections. -/

@[simp] theorem saveCurrentHoleStep_name (roundId : String) (ch : Nat)
    (hd : HoleData) : (saveCurrentHoleStep roundId ch hd).name = "saveCurrentHole" := rfl

@[simp] theorem retrieveAllHolesStep_name (roundId : String) :
    (retrieveAllHolesStep roundId).name = "retrieveAllHoles" := rfl

@[simp] theorem validateDataStep_name : validateDataStep.name = "validateData" := rfl

@[simp] theorem saveToDatabaseStep_name (env : Env) (roundId : String) :
    (saveToDatabaseStep env roundId).name = "saveToDatabase" := rfl

@[simp] theorem markCompleteStep_name (env : Env) (roundId : String) :
    (markCompleteStep env roundId).name = "markComplete" := rfl

@[simp] theorem generateInsightsStep_name (env : Env) (userId roundId : String) :
    (generateInsightsStep env userId roundId).name = "generateInsights" := rfl

@[simp] theorem cleanupStep_name (roundId : String) :
    (cleanupStep roundId).name = "cleanup" := rfl

/-!  Unfolding lemmas for one orchestrator loop iteration. -/

theorem runSteps_cons_skip (env : Env) (roundId : String) (s : StepEntry)
    (rest : List StepEntry) (results : Results)
    (progress : List (String × StepStatus)) (w : World)
    (h : (alistGet progress s.name).map StepStatus.status = some "completed") :
    runSteps env roundId (s :: rest) results progress w =
      runSteps env roundId rest results progress w := by
  rw [runSteps, if_pos h]

theorem runSteps_cons_ok (env : Env) (roundId : String) (s : StepEntry)
    (rest : List StepEntry) (results : Results)
    (progress : List (String × StepStatus)) (w : World)
    (result : StepResult) (w2 : World)
    (hns : ¬(alistGet progress s.name).map StepStatus.status = some "completed")
    (hfn : s.fn results (saveCompletionCheckpoint w roundId
        (alistSet progress s.name { status := "pending", timestamp := w.now }) none)
      = (.ok result, w2)) :
    runSteps env roundId (s :: rest) results progress w =
      runSteps env roundId rest (setResult results s.name result)
        (alistSet progress s.name { status := "completed", timestamp := w2.now })
        (saveCompletionCheckpoint w2 roundId
          (alistSet progress s.name { status := "completed", timestamp := w2.now })
          none) := by
  rw [runSteps, if_neg hns]
  simp only [hfn, alistSet_set_same]

theorem runSteps_cons_error (env : Env) (roundId : String) (s : StepEntry)
    (rest : List StepEntry) (results : Results)
    (progress : List (String × StepStatus)) (w : World)
    (err : JsError) (w2 : World)
    (hns : ¬(alistGet progress s.name).map StepStatus.status = some "completed")
    (hfn : s.fn results (saveCompletionCheckpoint w roundId
        (alistSet progress s.name { status := "pending", timestamp := w.now }) none)
      = (.error err, w2)) :
    runSteps env roundId (s :: rest) results progress w =
      (.error { step := s.name, error := err,
                checkpoint := alistSet progress s.name
                  { status := "failed", timestamp := w2.now, error := err.jsMessage },
                canRetry := true },
       saveCompletionCheckpoint w2 roundId
         (alistSet progress s.name
           { status := "failed", timestamp := w2.now, error := err.jsMessage })
         (some { step := s.name, error := err.jsMessage, timestamp := w2.now,
                 authContext := env.auth })) := by
  rw [runSteps, if_neg hns]
  simp only [hfn, alistSet_set_same]

/-!  The success path of the whole pipeline. -/

theorem completeSeq_success (env : Env) (w0 : World) (roundId : String)
    (currentHole : Nat) (hd : HoleData) (userId : String) (rr : RoundRow)
    (cr : CourseRow)
    (hread : env.checkpointReadErr = false)
    (hup : ∀ n, env.upsertErr roundId n = none)
    (h1 : env.roundsSelectErr = none) (h2 : env.coursesSelectErr = none)
    (h3 : env.shotsSelectErr = none) (h4 : env.roundsUpdateErr = none)
    (hcp : w0.checkpointSlot roundId = none)
    (hr : alistGet w0.db.rounds roundId = some rr)
    (hc : alistGet w0.db.courses rr.course_id = some cr)
    (hvalid : validKeys (mergedColl w0 roundId currentHole hd) ≠ []) :
    ∃ (res : RunSuccess) (wf : World),
      completeRoundSequential env w0 roundId currentHole hd userId = (.ok res, wf) ∧
      res.success = true ∧ res.resumedFromCheckpoint = false ∧
      wf.localHoles roundId = none ∧
      (∀ r2, r2 ≠ roundId → wf.localHoles r2 = w0.localHoles r2) ∧
      wf.currentRound = none ∧
      wf.checkpointSlot roundId = none ∧
      wf.db.courses = w0.db.courses ∧
      (∀ k : String × Nat,
        alistGet wf.db.shots k =
          if k.1 = roundId ∧ k.2 ∈ holeNumbers ∧
              holeValidAt (mergedColl w0 roundId currentHole hd) k.2 = true
          then savedRowAt (mergedColl w0 roundId currentHole hd) k.2
          else alistGet w0.db.shots k) := by
  set M : HoleCollection := mergedColl w0 roundId currentHole hd with hM
  have hdet : detectResumePoint env w0 roundId = (.startFromBeginning, w0) := by
    simp [detectResumePoint, loadCompletionCheckpoint, hread, hcp]
  -- tail lemma for `[cleanup]`
  have t7 : ∀ (res : Results) (prog : List (String × StepStatus)) (w : World),
      ¬statusIn prog "cleanup" = some "completed" →
      ∃ (R : Results) (P : List (String × StepStatus)) (wf : World),
        runSteps env roundId [cleanupStep roundId] res prog w = (.ok (R, P), wf) ∧
        wf.localHoles roundId = none ∧
        (∀ r2, r2 ≠ roundId → wf.localHoles r2 = w.localHoles r2) ∧
        wf.currentRound = none ∧ wf.db = w.db := by
    intro res prog w hskip
    rw [runSteps_cons_ok env roundId (cleanupStep roundId) [] res prog w _ _
      hskip rfl]
    refine ⟨_, _, _, rfl, ?_, ?_, ?_, ?_⟩
    · simp [cleanupLocalStorage]
    · intro r2 hr2; simp [cleanupLocalStorage, clearCompletionCheckpoint, hr2]
    · simp [cleanupLocalStorage, clearCompletionCheckpoint]
    · simp [cleanupLocalStorage, clearCompletionCheckpoint]
  -- the insights step always succeeds and leaves the world unchanged
  have hgen6 : ∀ (res : Results) (w : World),
      ∃ r6, (generateInsightsStep env userId roundId).fn res w = (.ok r6, w) := by
    intro res w
    cases henv : env.insightsThrow with
    | none =>
      exact ⟨{ step := "generateInsights", triggered := some true },
        by simp [generateInsightsStep, generateInsights, henv]⟩
    | some msg =>
      refine ⟨{ step := "generateInsights", triggered := some false, triggerError := some msg }, ?_⟩
      simp [generateInsightsStep, generateInsights, henv]
  -- tail lemma for `[generateInsights, cleanup]`
  have t6 : ∀ (res : Results) (prog : List (String × StepStatus)) (w : World),
      ¬statusIn prog "generateInsights" = some "completed" →
      ¬statusIn prog "cleanup" = some "completed" →
      ∃ (R : Results) (P : List (String × StepStatus)) (wf : World),
        runSteps env roundId [generateInsightsStep env userId roundId,
          cleanupStep roundId] res prog w = (.ok (R, P), wf) ∧
        wf.localHoles roundId = none ∧
        (∀ r2, r2 ≠ roundId → wf.localHoles r2 = w.localHoles r2) ∧
        wf.currentRound = none ∧ wf.db = w.db := by
    intro res prog w h6 h7
    rcases hgen6 res (saveCompletionCheckpoint w roundId
      (alistSet prog "generateInsights" { status := "pending", timestamp := w.now })
      none) with ⟨r6, hr6⟩
    rw [runSteps_cons_ok env roundId (generateInsightsStep env userId roundId)
      [cleanupStep roundId] res prog w _ _ h6 hr6]
    simp only [generateInsightsStep_name]
    refine t7 _ _ _ ?_
    rw [statusIn_set_ne _ _ _ _ (by decide)]
    exact h7
  -- tail lemma for `[markComplete, generateInsights, cleanup]`
  have t5 : ∀ (res : Results) (prog : List (String × StepStatus)) (w : World),
      ¬statusIn prog "markComplete" = some "completed" →
      ¬statusIn prog "generateInsights" = some "completed" →
      ¬statusIn prog "cleanup" = some "completed" →
      w.db.rounds = w0.db.rounds → w.db.courses = w0.db.courses →
      ∃ (R : Results) (P : List (String × StepStatus)) (wf : World),
        runSteps env roundId [markCompleteStep env roundId,
          generateInsightsStep env userId roundId, cleanupStep roundId]
          res prog w = (.ok (R, P), wf) ∧
        wf.localHoles roundId = none ∧
        (∀ r2, r2 ≠ roundId → wf.localHoles r2 = w.localHoles r2) ∧
        wf.currentRound = none ∧ wf.db.shots = w.db.shots ∧
        wf.db.courses = w.db.courses := by
    intro res prog w h5 h6 h7 hdbr hdbc
    set W5p : World := saveCompletionCheckpoint w roundId
      (alistSet prog "markComplete" { status := "pending", timestamp := w.now })
      none with hW5p
    have hrw : alistGet W5p.db.rounds roundId = some rr := by
      rw [hW5p, saveCP_db, hdbr]; exact hr
    have hcw : alistGet W5p.db.courses rr.course_id = some cr := by
      rw [hW5p, saveCP_db, hdbc]; exact hc
    have hcr5 := completeRound_ok env W5p.db roundId rr cr h1 h2 h3 h4 hrw hcw
    set r5v : StepResult := { step := "markComplete", roundData :=
      ((completedRounds W5p.db roundId (jsOrInt cr.par 72)).filter
        (fun p => p.1 == roundId)).map Prod.snd } with hr5v
    set W5b : World := { W5p with db := { W5p.db with
      rounds := completedRounds W5p.db roundId (jsOrInt cr.par 72) } } with hW5b
    have hfn5 : (markCompleteStep env roundId).fn res W5p = (.ok r5v, W5b) := by
      simp only [markCompleteStep, markRoundComplete, hcr5]
    rw [runSteps_cons_ok env roundId (markCompleteStep env roundId)
      [generateInsightsStep env userId roundId, cleanupStep roundId]
      res prog w _ _ h5 hfn5]
    simp only [markCompleteStep_name]
    obtain ⟨R, P, wf, heq, g1, g2, g3, g4⟩ := t6
      (setResult res "markComplete" r5v)
      (alistSet prog "markComplete" { status := "completed", timestamp := W5b.now })
      (saveCompletionCheckpoint W5b roundId
        (alistSet prog "markComplete" { status := "completed", timestamp := W5b.now })
        none)
      (by rw [statusIn_set_ne _ _ _ _ (by decide)]; exact h6)
      (by rw [statusIn_set_ne _ _ _ _ (by decide)]; exact h7)
    refine ⟨R, P, wf, heq, g1, ?_, g3, ?_, ?_⟩
    · intro r2 hr2
      rw [g2 r2 hr2, saveCP_localHoles]
      exact rfl
    · rw [g4, saveCP_db]
      exact rfl
    · rw [g4, saveCP_db]
      exact rfl
  -- tail lemma for `[saveToDatabase, markComplete, generateInsights, cleanup]`
  have t4 : ∀ (res : Results) (prog : List (String × StepStatus)) (w : World),
      ¬statusIn prog "saveToDatabase" = some "completed" →
      ¬statusIn prog "markComplete" = some "completed" →
      ¬statusIn prog "generateInsights" = some "completed" →
      ¬statusIn prog "cleanup" = some "completed" →
      res "retrieveAllHoles" = some (retrieveResultFor M) →
      w.db.rounds = w0.db.rounds → w.db.courses = w0.db.courses →
      ∃ (R : Results) (P : List (String × StepStatus)) (wf : World),
        runSteps env roundId [saveToDatabaseStep env roundId,
          markCompleteStep env roundId, generateInsightsStep env userId roundId,
          cleanupStep roundId] res prog w = (.ok (R, P), wf) ∧
        wf.localHoles roundId = none ∧
        (∀ r2, r2 ≠ roundId → wf.localHoles r2 = w.localHoles r2) ∧
        wf.currentRound = none ∧ wf.db.courses = w.db.courses ∧
        (∀ k : String × Nat,
          alistGet wf.db.shots k =
            if k.1 = roundId ∧ k.2 ∈ holeNumbers ∧ holeValidAt M k.2 = true
            then savedRowAt M k.2
            else alistGet w.db.shots k) := by
    intro res prog w h4s h5 h6 h7 hres hdbr hdbc
    obtain ⟨saved2, w2, heq4, e_now, e_lh, e_cur, e_slot, e_rnd, e_crs, e_shots⟩ :=
      saveHolesLoop_ok env roundId M hup holeNumbers
        (saveCompletionCheckpoint w roundId
          (alistSet prog "saveToDatabase" { status := "pending", timestamp := w.now })
          none) []
    have hfn4 : (saveToDatabaseStep env roundId).fn res
        (saveCompletionCheckpoint w roundId
          (alistSet prog "saveToDatabase" { status := "pending", timestamp := w.now })
          none) = (.ok (savedResultFor saved2), w2) := by
      simp only [saveToDatabaseStep, hres, retrieveResultFor, saveHolesToDatabase, heq4,
        savedResultFor]
    rw [runSteps_cons_ok env roundId (saveToDatabaseStep env roundId)
      [markCompleteStep env roundId, generateInsightsStep env userId roundId,
        cleanupStep roundId] res prog w _ _ h4s hfn4]
    simp only [saveToDatabaseStep_name]
    obtain ⟨R, P, wf, heq, g1, g2, g3, g4, g5⟩ := t5
      (setResult res "saveToDatabase" (savedResultFor saved2))
      (alistSet prog "saveToDatabase" { status := "completed", timestamp := w2.now })
      (saveCompletionCheckpoint w2 roundId
        (alistSet prog "saveToDatabase" { status := "completed", timestamp := w2.now })
        none)
      (by rw [statusIn_set_ne _ _ _ _ (by decide)]; exact h5)
      (by rw [statusIn_set_ne _ _ _ _ (by decide)]; exact h6)
      (by rw [statusIn_set_ne _ _ _ _ (by decide)]; exact h7)
      (by rw [saveCP_db, e_rnd]; exact hdbr)
      (by rw [saveCP_db, e_crs]; exact hdbc)
    refine ⟨R, P, wf, heq, g1, ?_, g3, ?_, ?_⟩
    · intro r2 hr2
      rw [g2 r2 hr2, saveCP_localHoles, e_lh, saveCP_localHoles]
    · rw [g5, saveCP_db, e_crs, saveCP_db]
    · intro k
      rw [g4, saveCP_db, e_shots k, saveCP_db]
  -- tail lemma for `[validateData, ...]`
  have t3 : ∀ (res : Results) (prog : List (String × StepStatus)) (w : World),
      ¬statusIn prog "validateData" = some "completed" →
      ¬statusIn prog "saveToDatabase" = some "completed" →
      ¬statusIn prog "markComplete" = some "completed" →
      ¬statusIn prog "generateInsights" = some "completed" →
      ¬statusIn prog "cleanup" = some "completed" →
      res "retrieveAllHoles" = some (retrieveResultFor M) →
      w.db.rounds = w0.db.rounds → w.db.courses = w0.db.courses →
      ∃ (R : Results) (P : List (String × StepStatus)) (wf : World),
        runSteps env roundId [validateDataStep, saveToDatabaseStep env roundId,
          markCompleteStep env roundId, generateInsightsStep env userId roundId,
          cleanupStep roundId] res prog w = (.ok (R, P), wf) ∧
        wf.localHoles roundId = none ∧
        (∀ r2, r2 ≠ roundId → wf.localHoles r2 = w.localHoles r2) ∧
        wf.currentRound = none ∧ wf.db.courses = w.db.courses ∧
        (∀ k : String × Nat,
          alistGet wf.db.shots k =
            if k.1 = roundId ∧ k.2 ∈ holeNumbers ∧ holeValidAt M k.2 = true
            then savedRowAt M k.2
            else alistGet w.db.shots k) := by
    intro res prog w h3v h4s h5 h6 h7 hres hdbr hdbc
    have hfn3 : validateDataStep.fn res
        (saveCompletionCheckpoint w roundId
          (alistSet prog "validateData" { status := "pending", timestamp := w.now })
          none) = (.ok (validateResultFor M),
          saveCompletionCheckpoint w roundId
            (alistSet prog "validateData" { status := "pending", timestamp := w.now })
            none) := by
      simp only [validateDataStep, hres, retrieveResultFor, validateHoleData_ok M hvalid]
    rw [runSteps_cons_ok env roundId validateDataStep
      [saveToDatabaseStep env roundId, markCompleteStep env roundId,
        generateInsightsStep env userId roundId, cleanupStep roundId]
      res prog w _ _ h3v hfn3]
    simp only [validateDataStep_name]
    refine t4 _ _ _ ?_ ?_ ?_ ?_ ?_ hdbr hdbc
    · rw [statusIn_set_ne _ _ _ _ (by decide)]; exact h4s
    · rw [statusIn_set_ne _ _ _ _ (by decide)]; exact h5
    · rw [statusIn_set_ne _ _ _ _ (by decide)]; exact h6
    · rw [statusIn_set_ne _ _ _ _ (by decide)]; exact h7
    · rw [setResult_ne _ _ _ _ (by decide)]; exact hres
  -- tail lemma for `[retrieveAllHoles, ...]`
  have t2 : ∀ (res : Results) (prog : List (String × StepStatus)) (w : World),
      ¬statusIn prog "retrieveAllHoles" = some "completed" →
      ¬statusIn prog "validateData" = some "completed" →
      ¬statusIn prog "saveToDatabase" = some "completed" →
      ¬statusIn prog "markComplete" = some "completed" →
      ¬statusIn prog "generateInsights" = some "completed" →
      ¬statusIn prog "cleanup" = some "completed" →
      w.localHoles roundId = some M →
      w.db.rounds = w0.db.rounds → w.db.courses = w0.db.courses →
      ∃ (R : Results) (P : List (String × StepStatus)) (wf : World),
        runSteps env roundId [retrieveAllHolesStep roundId, validateDataStep,
          saveToDatabaseStep env roundId, markCompleteStep env roundId,
          generateInsightsStep env userId roundId, cleanupStep roundId]
          res prog w = (.ok (R, P), wf) ∧
        wf.localHoles roundId = none ∧
        (∀ r2, r2 ≠ roundId → wf.localHoles r2 = w.localHoles r2) ∧
        wf.currentRound = none ∧ wf.db.courses = w.db.courses ∧
        (∀ k : String × Nat,
          alistGet wf.db.shots k =
            if k.1 = roundId ∧ k.2 ∈ holeNumbers ∧ holeValidAt M k.2 = true
            then savedRowAt M k.2
            else alistGet w.db.shots k) := by
    intro res prog w h2r h3v h4s h5 h6 h7 hloc hdbr hdbc
    have hfn2 : (retrieveAllHolesStep roundId).fn res
        (saveCompletionCheckpoint w roundId
          (alistSet prog "retrieveAllHoles" { status := "pending", timestamp := w.now })
          none) = (.ok (retrieveResultFor M),
          saveCompletionCheckpoint w roundId
            (alistSet prog "retrieveAllHoles" { status := "pending", timestamp := w.now })
            none) := by
      simp only [retrieveAllHolesStep, retrieveAllHoleData, saveCP_localHoles, hloc,
        retrieveResultFor]
    rw [runSteps_cons_ok env roundId (retrieveAllHolesStep roundId)
      [validateDataStep, saveToDatabaseStep env roundId, markCompleteStep env roundId,
        generateInsightsStep env userId roundId, cleanupStep roundId]
      res prog w _ _ h2r hfn2]
    simp only [retrieveAllHolesStep_name]
    refine t3 _ _ _ ?_ ?_ ?_ ?_ ?_ ?_ hdbr hdbc
    · rw [statusIn_set_ne _ _ _ _ (by decide)]; exact h3v
    · rw [statusIn_set_ne _ _ _ _ (by decide)]; exact h4s
    · rw [statusIn_set_ne _ _ _ _ (by decide)]; exact h5
    · rw [statusIn_set_ne _ _ _ _ (by decide)]; exact h6
    · rw [statusIn_set_ne _ _ _ _ (by decide)]; exact h7
    · exact setResult_self _ _ _
  -- the full pipeline from a fresh start at `w0`
  have hall : ∃ (R : Results) (P : List (String × StepStatus)) (wf : World),
      runSteps env roundId (completionSteps env roundId currentHole hd userId)
        (fun _ => none) [] w0 = (.ok (R, P), wf) ∧
      wf.localHoles roundId = none ∧
      (∀ r2, r2 ≠ roundId → wf.localHoles r2 = w0.localHoles r2) ∧
      wf.currentRound = none ∧ wf.db.courses = w0.db.courses ∧
      (∀ k : String × Nat,
        alistGet wf.db.shots k =
          if k.1 = roundId ∧ k.2 ∈ holeNumbers ∧ holeValidAt M k.2 = true
          then savedRowAt M k.2
          else alistGet w0.db.shots k) := by
    unfold completionSteps
    rw [runSteps_cons_ok env roundId (saveCurrentHoleStep roundId currentHole hd)
      [retrieveAllHolesStep roundId, validateDataStep, saveToDatabaseStep env roundId,
        markCompleteStep env roundId, generateInsightsStep env userId roundId,
        cleanupStep roundId] (fun _ => none) [] w0 _ _ (by simp [alistGet])
      rfl]
    simp only [saveCurrentHoleStep_name]
    obtain ⟨R, P, wf, heq, g1, g2, g3, g4, g5⟩ := t2
      (setResult (fun _ => none) "saveCurrentHole" { step := "saveCurrentHole" })
      (alistSet [] "saveCurrentHole" { status := "completed", timestamp := w0.now })
      (saveCompletionCheckpoint
        { saveCompletionCheckpoint w0 roundId
            (alistSet [] "saveCurrentHole" { status := "pending", timestamp := w0.now })
            none with
          localHoles := fun r =>
            if r = roundId then
              some (alistSet ((w0.localHoles roundId).getD []) currentHole hd)
            else w0.localHoles r }
        roundId
        (alistSet [] "saveCurrentHole" { status := "completed", timestamp := w0.now })
        none)
      (by rw [statusIn_set_ne _ _ _ _ (by decide)]; simp [statusIn, alistGet])
      (by rw [statusIn_set_ne _ _ _ _ (by decide)]; simp [statusIn, alistGet])
      (by rw [statusIn_set_ne _ _ _ _ (by decide)]; simp [statusIn, alistGet])
      (by rw [statusIn_set_ne _ _ _ _ (by decide)]; simp [statusIn, alistGet])
      (by rw [statusIn_set_ne _ _ _ _ (by decide)]; simp [statusIn, alistGet])
      (by rw [statusIn_set_ne _ _ _ _ (by decide)]; simp [statusIn, alistGet])
      (by simp [hM, mergedColl])
      rfl rfl
    refine ⟨R, P, wf, ?_, g1, ?_, g3, g4, g5⟩
    · exact heq
    · intro r2 hr2
      rw [g2 r2 hr2]
      simp [hr2]
  obtain ⟨R, P, wf, heq, f1, f2, f3, f4, f5⟩ := hall
  have hfinal : completeRoundSequential env w0 roundId currentHole hd userId =
      (.ok { success := true, results := R, resumedFromCheckpoint := false },
       clearCompletionCheckpoint wf roundId) := by
    unfold completeRoundSequential
    simp only [hdet, List.drop_zero]
    rw [heq]
  refine ⟨{ success := true, results := R, resumedFromCheckpoint := false },
    clearCompletionCheckpoint wf roundId, hfinal, rfl, rfl, f1, f2, f3,
    clearCP_slot_self _ _, f4, f5⟩


/-!  List lemmas for the `removeShot` analysis. -/

theorem findIdx_decomp {α : Type} (p : α → Bool) :
    ∀ (l : List α) (i : Nat), l.findIdx? p = some i →
      ∃ l1 x l2, l = l1 ++ x :: l2 ∧ l1.length = i ∧ p x = true ∧
        ∀ y ∈ l1, p y = false := by
  intro l
  induction l with
  | nil => intro i h; simp at h
  | cons a t ih =>
    intro i h
    by_cases hp : p a
    · refine ⟨[], a, t, by simp, ?_, hp, by simp⟩
      simp [List.findIdx?_cons, hp] at h
      simp [h]
    · rw [List.findIdx?_cons, if_neg hp, List.findIdx?_start_succ] at h
      rcases Option.map_eq_some'.mp h with ⟨j, hj, hji⟩
      rcases ih j hj with ⟨l1, x, l2, hdec, hlen, hpx, hpre⟩
      refine ⟨a :: l1, x, l2, by rw [hdec, List.cons_append], by simp [hlen, ← hji],
        hpx, ?_⟩
      intro y hy
      rcases List.mem_cons.mp hy with rfl | hy2
      · simpa using hp
      · exact hpre y hy2

theorem eraseIdx_append_cons {α : Type} (l1 : List α) (x : α) (l2 : List α) :
    (l1 ++ x :: l2).eraseIdx l1.length = l1 ++ l2 := by
  induction l1 with
  | nil => simp [List.eraseIdx]
  | cons a t ih => simp [List.eraseIdx, ih]

/-- C9: `removeShot(type, outcome)` removes the most recently recorded shot
whose type and outcome both match and decrements the corresponding tally;
when the tally for that type and outcome is zero (equivalently, under the
tally invariant, when no matching shot exists) the hole state is unchanged. -/
theorem claim9_removeShot (t o : String) (h : HoleState)
    (hinv : h.shotCounts t o = (h.shots.filter (shotMatches t o)).length) :
    (h.shotCounts t o = 0 → removeShot t o h = h ∧
      ∀ y ∈ h.shots, shotMatches t o y = false) ∧
    (h.shotCounts t o ≠ 0 →
      ∃ l1 x l2, h.shots = l1 ++ x :: l2 ∧ shotMatches t o x = true ∧
        (∀ y ∈ l2, shotMatches t o y = false) ∧
        (removeShot t o h).shots = l1 ++ l2 ∧
        (removeShot t o h).shotCounts t o = h.shotCounts t o - 1 ∧
        (∀ t2 o2, ¬(t2 = t ∧ o2 = o) →
          (removeShot t o h).shotCounts t2 o2 = h.shotCounts t2 o2)) := by
  constructor
  · intro h0
    constructor
    · simp [removeShot, h0]
    · intro y hy
      have hnil : h.shots.filter (shotMatches t o) = [] :=
        List.length_eq_zero.mp (by rw [← hinv]; exact h0)
      by_contra hpy
      have : y ∈ h.shots.filter (shotMatches t o) :=
        List.mem_filter.mpr ⟨hy, by simpa using hpy⟩
      simp [hnil] at this
  · intro hne
    have hexists : ∃ x, x ∈ h.shots.reverse ∧ shotMatches t o x = true := by
      have hfil : h.shots.filter (shotMatches t o) ≠ [] := by
        intro hnil
        exact hne (by rw [hinv, hnil]; rfl)
      rcases List.exists_mem_of_ne_nil _ hfil with ⟨x, hx⟩
      exact ⟨x, by simpa using (List.mem_filter.mp hx).1, (List.mem_filter.mp hx).2⟩
    have hfind : h.shots.reverse.findIdx? (shotMatches t o) ≠ none := by
      rw [ne_eq, List.findIdx?_eq_none_iff]
      push_neg
      rcases hexists with ⟨x, hx1, hx2⟩
      exact ⟨x, hx1, by simp [hx2]⟩
    rcases Option.ne_none_iff_exists'.mp hfind with ⟨ri, hri⟩
    rcases findIdx_decomp _ _ _ hri with ⟨r1, x, r2, hdec, hlen, hpx, hpre⟩
    have hshots : h.shots = r2.reverse ++ x :: r1.reverse := by
      have h2 := congrArg List.reverse hdec
      rw [List.reverse_reverse] at h2
      rw [h2]
      simp
    have hlhs : h.shots.length = r1.length + r2.length + 1 := by
      have h3 := congrArg List.length hdec
      simp at h3
      omega
    have hidx : h.shots.length - 1 - ri = r2.reverse.length := by
      simp only [List.length_reverse]
      omega
    refine ⟨r2.reverse, x, r1.reverse, hshots, hpx, ?_, ?_, ?_, ?_⟩
    · intro y hy
      exact hpre y (by simpa using hy)
    · rw [show (removeShot t o h).shots =
          h.shots.eraseIdx (h.shots.length - 1 - ri) by
        simp [removeShot, hne, hri]]
      rw [hidx, hshots, eraseIdx_append_cons]
    · simp [removeShot, hne, hri]
    · intro t2 o2 hto
      simp [removeShot, hne, hri, hto]

/-- C9 witness: a concrete hole with two matching tee shots; the later one
(timestamp 3) is removed and the tally drops from 2 to 1. -/
theorem claim9_witness :
    (hsSample.shotCounts "tee_shot" "good" = 0 → removeShot "tee_shot" "good" hsSample = hsSample ∧
      ∀ y ∈ hsSample.shots, shotMatches "tee_shot" "good" y = false) ∧
    (hsSample.shotCounts "tee_shot" "good" ≠ 0 →
      ∃ l1 x l2, hsSample.shots = l1 ++ x :: l2 ∧
        shotMatches "tee_shot" "good" x = true ∧
        (∀ y ∈ l2, shotMatches "tee_shot" "good" y = false) ∧
        (removeShot "tee_shot" "good" hsSample).shots = l1 ++ l2 ∧
        (removeShot "tee_shot" "good" hsSample).shotCounts "tee_shot" "good" =
          hsSample.shotCounts "tee_shot" "good" - 1 ∧
        (∀ t2 o2, ¬(t2 = "tee_shot" ∧ o2 = "good") →
          (removeShot "tee_shot" "good" hsSample).shotCounts t2 o2 =
            hsSample.shotCounts t2 o2)) :=
  claim9_removeShot "tee_shot" "good" hsSample rfl

/-- C8: loading a checkpoint strictly after its `expiresAt` returns `none`,
deletes the stored record, and resume planning starts from the beginning. -/
theorem claim8_expiry (env : Env) (w : World) (roundId : String) (c : Checkpoint)
    (hread : env.checkpointReadErr = false)
    (hslot : w.checkpointSlot roundId = some (.valid c))
    (hexp : c.expiresAt < w.now) :
    (loadCompletionCheckpoint env w roundId).1 = none ∧
    (loadCompletionCheckpoint env w roundId).2.checkpointSlot roundId = none ∧
    (detectResumePoint env w roundId).1 = .startFromBeginning := by
  have hload : loadCompletionCheckpoint env w roundId =
      (none, { w with checkpointSlot := fun r =>
        if r = roundId then none else w.checkpointSlot r }) := by
    simp [loadCompletionCheckpoint, hread, hslot, hexp]
  refine ⟨by rw [hload], by rw [hload]; simp, ?_⟩
  simp [detectResumePoint, hload]

/-- C8 witness: the stored checkpoint for `r1` expired at 500 while now is
1000: the load deletes it and planning starts from the beginning. -/
theorem claim8_witness :
    (loadCompletionCheckpoint envOK wExpired "r1").1 = none ∧
    (loadCompletionCheckpoint envOK wExpired "r1").2.checkpointSlot "r1" = none ∧
    (detectResumePoint envOK wExpired "r1").1 = .startFromBeginning :=
  claim8_expiry envOK wExpired "r1" cpOld rfl rfl (by decide)

/-- C10: `loadCompletionCheckpoint` is total — a storage read that throws, a
missing cell, and stored text that does not parse all yield `none` (the
model returns an `Option` in every branch rather than raising), and resume
planning then starts from the beginning. -/
theorem claim10_load_never_throws (env : Env) (w : World) (roundId : String) :
    (env.checkpointReadErr = true →
      loadCompletionCheckpoint env w roundId = (none, w) ∧
      (detectResumePoint env w roundId).1 = .startFromBeginning) ∧
    (env.checkpointReadErr = false → w.checkpointSlot roundId = none →
      loadCompletionCheckpoint env w roundId = (none, w) ∧
      (detectResumePoint env w roundId).1 = .startFromBeginning) ∧
    (env.checkpointReadErr = false → w.checkpointSlot roundId = some .corrupt →
      loadCompletionCheckpoint env w roundId = (none, w) ∧
      (detectResumePoint env w roundId).1 = .startFromBeginning) := by
  refine ⟨?_, ?_, ?_⟩
  · intro hthrow
    have hload : loadCompletionCheckpoint env w roundId = (none, w) := by
      simp [loadCompletionCheckpoint, hthrow]
    exact ⟨hload, by simp [detectResumePoint, hload]⟩
  · intro hread hslot
    have hload : loadCompletionCheckpoint env w roundId = (none, w) := by
      simp [loadCompletionCheckpoint, hread, hslot]
    exact ⟨hload, by simp [detectResumePoint, hload]⟩
  · intro hread hslot
    have hload : loadCompletionCheckpoint env w roundId = (none, w) := by
      simp [loadCompletionCheckpoint, hread, hslot]
    exact ⟨hload, by simp [detectResumePoint, hload]⟩

/-- C10 witness: a throwing read and a corrupted cell each behave exactly
like a missing checkpoint. -/
theorem claim10_witness :
    (envReadErr.checkpointReadErr = true →
      loadCompletionCheckpoint envReadErr wBase "r1" = (none, wBase) ∧
      (detectResumePoint envReadErr wBase "r1").1 = .startFromBeginning) ∧
    ((envReadErr.checkpointReadErr = false → wBase.checkpointSlot "r1" = none →
      loadCompletionCheckpoint envReadErr wBase "r1" = (none, wBase) ∧
      (detectResumePoint envReadErr wBase "r1").1 = .startFromBeginning) ∧
    (envOK.checkpointReadErr = false → wCorrupt.checkpointSlot "r1" = some .corrupt →
      loadCompletionCheckpoint envOK wCorrupt "r1" = (none, wCorrupt) ∧
      (detectResumePoint envOK wCorrupt "r1").1 = .startFromBeginning)) :=
  ⟨(claim10_load_never_throws envReadErr wBase "r1").1,
   (claim10_load_never_throws envReadErr wBase "r1").2.1,
   (claim10_load_never_throws envOK wCorrupt "r1").2.2⟩

/-- C4: `markComplete` (via `completeRound`) fetches the course par, sums the
saved holes into `grossShots`, and persists
`{is_complete := true, gross_shots, score := grossShots - coursePar}` on the
round row (for a non-zero stored par). -/
theorem claim4_markComplete (env : Env) (db : RemoteDB) (round_id : String)
    (rr : RoundRow) (cr : CourseRow) (p : Int)
    (h1 : env.roundsSelectErr = none) (h2 : env.coursesSelectErr = none)
    (h3 : env.shotsSelectErr = none) (h4 : env.roundsUpdateErr = none)
    (hr : alistGet db.rounds round_id = some rr)
    (hc : alistGet db.courses rr.course_id = some cr)
    (hpar : cr.par = some p) (hp : p ≠ 0) :
    ∃ db2 rows, completeRound env db round_id = .ok (db2, rows) ∧
      db2.shots = db.shots ∧ db2.courses = db.courses ∧
      alistGet db2.rounds round_id =
        some (completeRoundPatch (grossShotsOf db.shots round_id) p rr) := by
  refine ⟨_, _, completeRound_ok env db round_id rr cr h1 h2 h3 h4 hr hc,
    rfl, rfl, ?_⟩
  have hjs : jsOrInt cr.par 72 = p := by simp [jsOrInt, hpar, hp]
  rw [show ({ db with rounds := completedRounds db round_id (jsOrInt cr.par 72) } :
      RemoteDB).rounds = completedRounds db round_id (jsOrInt cr.par 72) from rfl]
  unfold completedRounds
  rw [alistGet_updateRows, if_pos rfl, hr, hjs]
  rfl

/-- C4 witness: coursePar = 72 and per-hole totals 40 + 45 = 85 persist
`grossStrokes = 85` and `scoreRelativeToPar = 13`. -/
theorem claim4_witness :
    grossShotsOf db85.shots "r9" = 85 ∧
    (completeRoundPatch 85 72 rr9).gross_shots = some 85 ∧
    (completeRoundPatch 85 72 rr9).score = some 13 ∧
    (completeRoundPatch 85 72 rr9).is_complete = true ∧
    ∃ db2 rows, completeRound envOK db85 "r9" = .ok (db2, rows) ∧
      alistGet db2.rounds "r9" = some (completeRoundPatch 85 72 rr9) := by
  refine ⟨by decide, by decide, by decide, by decide, ?_⟩
  obtain ⟨db2, rows, heq, hsh, hcs, hrow⟩ :=
    claim4_markComplete envOK db85 "r9" rr9 cr72 72 rfl rfl rfl rfl rfl rfl rfl
      (by decide)
  exact ⟨db2, rows, heq, by rw [hrow]; decide⟩

theorem mem_holeNumbers (n : Nat) : n ∈ holeNumbers ↔ 1 ≤ n ∧ n ≤ 18 := by
  unfold holeNumbers
  rw [List.mem_range']
  constructor
  · rintro ⟨i, hi, rfl⟩
    omega
  · rintro ⟨hn1, hn2⟩
    exact ⟨n - 1, by omega, by omega⟩

/-- C1: from a fresh start, when the merged local hole collection contains at
least one hole with non-empty shots, `completeRoundSequential` succeeds; the
remote `shots` table afterwards holds, under key `(roundId, n)` for
`n ∈ 1..18`, exactly the holes whose shots sequence is non-empty, each row
carrying the hole record and `total_score` equal to the length of its shots
sequence; holes with empty or missing shots are skipped, and rows of other
rounds are untouched. -/
theorem claim1_complete_success (env : Env) (w0 : World) (roundId : String)
    (currentHole : Nat) (hd : HoleData) (userId : String) (rr : RoundRow)
    (cr : CourseRow)
    (hread : env.checkpointReadErr = false)
    (hup : ∀ n, env.upsertErr roundId n = none)
    (h1 : env.roundsSelectErr = none) (h2 : env.coursesSelectErr = none)
    (h3 : env.shotsSelectErr = none) (h4 : env.roundsUpdateErr = none)
    (hcp : w0.checkpointSlot roundId = none)
    (hr : alistGet w0.db.rounds roundId = some rr)
    (hc : alistGet w0.db.courses rr.course_id = some cr)
    (hfresh : ∀ n, alistGet w0.db.shots (roundId, n) = none)
    (hplayed : ∃ p ∈ mergedColl w0 roundId currentHole hd,
      holeEntryValid p.2 = true) :
    ∃ res wf,
      completeRoundSequential env w0 roundId currentHole hd userId = (.ok res, wf) ∧
      res.success = true ∧
      (∀ n d l, alistGet (mergedColl w0 roundId currentHole hd) n = some d →
        d.shots = some l → l ≠ [] → 1 ≤ n → n ≤ 18 →
        alistGet wf.db.shots (roundId, n) =
          some { hole_data := d, total_score := l.length }) ∧
      (∀ n, 1 ≤ n → n ≤ 18 →
        holeValidAt (mergedColl w0 roundId currentHole hd) n = false →
        alistGet wf.db.shots (roundId, n) = none) ∧
      (∀ n, ¬(1 ≤ n ∧ n ≤ 18) → alistGet wf.db.shots (roundId, n) = none) ∧
      (∀ k : String × Nat, k.1 ≠ roundId →
        alistGet wf.db.shots k = alistGet w0.db.shots k) := by
  have hvalid : validKeys (mergedColl w0 roundId currentHole hd) ≠ [] :=
    (validKeys_ne_nil_iff _).mpr hplayed
  obtain ⟨res, wf, heq, hsucc, hres, hlh, hlh2, hcur, hslot, hcrs, hshots⟩ :=
    completeSeq_success env w0 roundId currentHole hd userId rr cr hread hup
      h1 h2 h3 h4 hcp hr hc hvalid
  refine ⟨res, wf, heq, hsucc, ?_, ?_, ?_, ?_⟩
  · intro n d l hlook hsl hlne hn1 hn2
    have hval : holeValidAt (mergedColl w0 roundId currentHole hd) n = true := by
      simp [holeValidAt, hlook, holeEntryValid, hsl]
      exact List.length_pos.mpr hlne
    rw [hshots (roundId, n),
      if_pos ⟨rfl, (mem_holeNumbers n).mpr ⟨hn1, hn2⟩, hval⟩]
    simp only [savedRowAt, hlook, hsl]
    rw [if_neg (by simpa using hlne)]
  · intro n hn1 hn2 hinvalid
    rw [hshots (roundId, n), if_neg (by simp [hinvalid]), hfresh n]
  · intro n hout
    rw [hshots (roundId, n),
      if_neg (by rintro ⟨_, hmem, _⟩; exact hout ((mem_holeNumbers n).mp hmem)),
      hfresh n]
  · intro k hk
    rw [hshots k, if_neg (by rintro ⟨hk1, _, _⟩; exact hk hk1)]

/-- C1 witness: round `r1` with holes 1..3 holding 4, 5 and 3 shots; the run
succeeds and writes exactly rows (r1,1), (r1,2), (r1,3) with those totals. -/
theorem claim1_witness :
    ∃ res wf,
      completeRoundSequential envOK wBase "r1" 3 (holeWithShots 3) "u1" =
        (.ok res, wf) ∧
      res.success = true ∧
      (∀ n d l, alistGet (mergedColl wBase "r1" 3 (holeWithShots 3)) n = some d →
        d.shots = some l → l ≠ [] → 1 ≤ n → n ≤ 18 →
        alistGet wf.db.shots ("r1", n) =
          some { hole_data := d, total_score := l.length }) ∧
      (∀ n, 1 ≤ n → n ≤ 18 →
        holeValidAt (mergedColl wBase "r1" 3 (holeWithShots 3)) n = false →
        alistGet wf.db.shots ("r1", n) = none) ∧
      (∀ n, ¬(1 ≤ n ∧ n ≤ 18) → alistGet wf.db.shots ("r1", n) = none) ∧
      (∀ k : String × Nat, k.1 ≠ "r1" →
        alistGet wf.db.shots k = alistGet wBase.db.shots k) :=
  claim1_complete_success envOK wBase "r1" 3 (holeWithShots 3) "u1"
    { course_id := "c1", profile_id := "u1" } { par := some 72 }
    rfl (fun _ => rfl) rfl rfl rfl rfl rfl (by decide) (by decide)
    (fun _ => rfl) ⟨(1, holeWithShots 4), by decide, by decide⟩

/-- C6: `generateInsights` always reports success to the orchestrator
regardless of the analysis request outcome, and with the analysis trigger
forced to fail (any synchronous throw and any asynchronous rejection) the
pipeline still reports overall success and the cleanup step still executes
(hole collection, `currentRound` pointer and checkpoint all removed). -/
theorem claim6_insights_nonblocking (env : Env) (w0 : World) (roundId : String)
    (currentHole : Nat) (hd : HoleData) (userId : String) (rr : RoundRow)
    (cr : CourseRow)
    (hread : env.checkpointReadErr = false)
    (hup : ∀ n, env.upsertErr roundId n = none)
    (h1 : env.roundsSelectErr = none) (h2 : env.coursesSelectErr = none)
    (h3 : env.shotsSelectErr = none) (h4 : env.roundsUpdateErr = none)
    (hcp : w0.checkpointSlot roundId = none)
    (hr : alistGet w0.db.rounds roundId = some rr)
    (hc : alistGet w0.db.courses rr.course_id = some cr)
    (hplayed : ∃ p ∈ mergedColl w0 roundId currentHole hd,
      holeEntryValid p.2 = true) :
    (∀ (w : World) (u r : String), ∃ r6,
      generateInsights env u w r = (.ok r6, w) ∧ r6.success = true) ∧
    ∃ res wf,
      completeRoundSequential env w0 roundId currentHole hd userId = (.ok res, wf) ∧
      res.success = true ∧
      wf.localHoles roundId = none ∧ wf.currentRound = none ∧
      wf.checkpointSlot roundId = none := by
  constructor
  · intro w u r
    cases henv : env.insightsThrow with
    | none =>
      exact ⟨{ step := "generateInsights", triggered := some true },
        by simp [generateInsights, henv], rfl⟩
    | some msg =>
      refine ⟨{ step := "generateInsights", triggered := some false, triggerError := some msg }, ?_, rfl⟩
      simp [generateInsights, henv]
  · have hvalid : validKeys (mergedColl w0 roundId currentHole hd) ≠ [] :=
      (validKeys_ne_nil_iff _).mpr hplayed
    obtain ⟨res, wf, heq, hsucc, hres, hlh, hlh2, hcur, hslot, hcrs, hshots⟩ :=
      completeSeq_success env w0 roundId currentHole hd userId rr cr hread hup
        h1 h2 h3 h4 hcp hr hc hvalid
    exact ⟨res, wf, heq, hsucc, hlh, hcur, hslot⟩

/-- C6 witness: the analysis trigger forced to fail (`envIns`) does not stop
the run for round `r1`; cleanup still clears all local state. -/
theorem claim6_witness :
    (∀ (w : World) (u r : String), ∃ r6,
      generateInsights envIns u w r = (.ok r6, w) ∧ r6.success = true) ∧
    ∃ res wf,
      completeRoundSequential envIns wBase "r1" 3 (holeWithShots 3) "u1" =
        (.ok res, wf) ∧
      res.success = true ∧
      wf.localHoles "r1" = none ∧ wf.currentRound = none ∧
      wf.checkpointSlot "r1" = none :=
  claim6_insights_nonblocking envIns wBase "r1" 3 (holeWithShots 3) "u1"
    { course_id := "c1", profile_id := "u1" } { par := some 72 }
    rfl (fun _ => rfl) rfl rfl rfl rfl rfl (by decide) (by decide)
    ⟨(1, holeWithShots 4), by decide, by decide⟩

theorem holeEntryValid_iff (d : HoleData) :
    holeEntryValid d = true ↔ ∃ l, d.shots = some l ∧ l ≠ [] := by
  cases hs : d.shots with
  | none => simp [holeEntryValid, hs]
  | some l => simp [holeEntryValid, hs, List.length_pos]

/-- C5: `validateData` accepts exactly the holes whose shots sequence is
non-empty and fails (with the wrapped ValidationError) if and only if that
set is empty; and a run whose merged hole collection has no hole with
non-empty shots fails at `validateData` with the remote store untouched
(no remote writes). -/
theorem claim5_validation_boundary :
    (∀ coll : HoleCollection,
      (∀ n, n ∈ validKeys coll ↔ ∃ d, (n, d) ∈ coll ∧ ∃ l, d.shots = some l ∧ l ≠ []) ∧
      (validateResultFor coll).validHoles = validKeys coll ∧
      (validKeys coll ≠ [] → validateHoleData coll = .ok (validateResultFor coll)) ∧
      (validKeys coll = [] → validateHoleData coll =
        .error (.stepWrapper "validateData" (.errorObj "No valid holes found in data")))) ∧
    (∀ (env : Env) (w0 : World) (roundId : String) (currentHole : Nat)
      (hd : HoleData) (userId : String),
      env.checkpointReadErr = false →
      w0.checkpointSlot roundId = none →
      (∀ p ∈ mergedColl w0 roundId currentHole hd, holeEntryValid p.2 = false) →
      ∃ f wF,
        completeRoundSequential env w0 roundId currentHole hd userId = (.error f, wF) ∧
        f.step = "validateData" ∧ wF.db = w0.db) := by
  constructor
  · intro coll
    refine ⟨?_, rfl, validateHoleData_ok coll, validateHoleData_error coll⟩
    intro n
    unfold validKeys
    rw [List.mem_map]
    constructor
    · rintro ⟨p, hp, rfl⟩
      rcases List.mem_filter.mp hp with ⟨hmem, hval⟩
      rcases (holeEntryValid_iff p.2).mp hval with ⟨l, hl, hlne⟩
      exact ⟨p.2, by simpa using hmem, l, hl, hlne⟩
    · rintro ⟨d, hmem, l, hl, hlne⟩
      exact ⟨(n, d), List.mem_filter.mpr
        ⟨hmem, (holeEntryValid_iff d).mpr ⟨l, hl, hlne⟩⟩, rfl⟩
  · intro env w0 roundId currentHole hd userId hread hcp hempty
    set M : HoleCollection := mergedColl w0 roundId currentHole hd with hM
    have hdet : detectResumePoint env w0 roundId = (.startFromBeginning, w0) := by
      simp [detectResumePoint, loadCompletionCheckpoint, hread, hcp]
    have hvk : validKeys M = [] := by
      unfold validKeys
      rw [List.map_eq_nil_iff, List.filter_eq_nil_iff]
      intro p hp
      simp [hempty p hp]
    have herr3 := validateHoleData_error M hvk
    have t3e : ∀ (res : Results) (prog : List (String × StepStatus)) (w : World),
        ¬statusIn prog "validateData" = some "completed" →
        res "retrieveAllHoles" = some (retrieveResultFor M) →
        ∃ f wF, runSteps env roundId [validateDataStep, saveToDatabaseStep env roundId,
            markCompleteStep env roundId, generateInsightsStep env userId roundId,
            cleanupStep roundId] res prog w = (.error f, wF) ∧
          f.step = "validateData" ∧ wF.db = w.db := by
      intro res prog w h3 hres
      have hfn3e : validateDataStep.fn res
          (saveCompletionCheckpoint w roundId
            (alistSet prog "validateData" { status := "pending", timestamp := w.now })
            none) = (.error (.stepWrapper "validateData"
              (.errorObj "No valid holes found in data")),
            saveCompletionCheckpoint w roundId
              (alistSet prog "validateData" { status := "pending", timestamp := w.now })
              none) := by
        simp only [validateDataStep, hres, retrieveResultFor, herr3]
      rw [runSteps_cons_error env roundId validateDataStep
        [saveToDatabaseStep env roundId, markCompleteStep env roundId,
          generateInsightsStep env userId roundId, cleanupStep roundId]
        res prog w _ _ h3 hfn3e]
      exact ⟨_, _, rfl, rfl, rfl⟩
    have t2e : ∀ (res : Results) (prog : List (String × StepStatus)) (w : World),
        ¬statusIn prog "retrieveAllHoles" = some "completed" →
        ¬statusIn prog "validateData" = some "completed" →
        w.localHoles roundId = some M →
        ∃ f wF, runSteps env roundId [retrieveAllHolesStep roundId, validateDataStep,
            saveToDatabaseStep env roundId, markCompleteStep env roundId,
            generateInsightsStep env userId roundId, cleanupStep roundId]
            res prog w = (.error f, wF) ∧
          f.step = "validateData" ∧ wF.db = w.db := by
      intro res prog w h2 h3 hloc
      have hfn2 : (retrieveAllHolesStep roundId).fn res
          (saveCompletionCheckpoint w roundId
            (alistSet prog "retrieveAllHoles" { status := "pending", timestamp := w.now })
            none) = (.ok (retrieveResultFor M),
            saveCompletionCheckpoint w roundId
              (alistSet prog "retrieveAllHoles" { status := "pending", timestamp := w.now })
              none) := by
        simp only [retrieveAllHolesStep, retrieveAllHoleData, saveCP_localHoles, hloc,
          retrieveResultFor]
      rw [runSteps_cons_ok env roundId (retrieveAllHolesStep roundId)
        [validateDataStep, saveToDatabaseStep env roundId, markCompleteStep env roundId,
          generateInsightsStep env userId roundId, cleanupStep roundId]
        res prog w _ _ h2 hfn2]
      simp only [retrieveAllHolesStep_name]
      refine t3e _ _ _ ?_ ?_
      · rw [statusIn_set_ne _ _ _ _ (by decide)]
        exact h3
      · exact setResult_self _ _ _
    obtain ⟨f, wF, heq, hstep, hdb⟩ := t2e
      (setResult (fun _ => none) "saveCurrentHole" { step := "saveCurrentHole" })
      (alistSet [] "saveCurrentHole" { status := "completed", timestamp := w0.now })
      (saveCompletionCheckpoint
        { saveCompletionCheckpoint w0 roundId
            (alistSet [] "saveCurrentHole" { status := "pending", timestamp := w0.now })
            none with
          localHoles := fun r =>
            if r = roundId then
              some (alistSet ((w0.localHoles roundId).getD []) currentHole hd)
            else w0.localHoles r }
        roundId
        (alistSet [] "saveCurrentHole" { status := "completed", timestamp := w0.now })
        none)
      (by rw [statusIn_set_ne _ _ _ _ (by decide)]; simp [statusIn, alistGet])
      (by rw [statusIn_set_ne _ _ _ _ (by decide)]; simp [statusIn, alistGet])
      (by simp [hM, mergedColl])
    have hrunEq : runSteps env roundId
        (completionSteps env roundId currentHole hd userId) (fun _ => none) [] w0 =
        (.error f, wF) := by
      unfold completionSteps
      rw [runSteps_cons_ok env roundId (saveCurrentHoleStep roundId currentHole hd)
        [retrieveAllHolesStep roundId, validateDataStep, saveToDatabaseStep env roundId,
          markCompleteStep env roundId, generateInsightsStep env userId roundId,
          cleanupStep roundId] (fun _ => none) [] w0 _ _ (by simp [alistGet]) rfl]
      simp only [saveCurrentHoleStep_name]
      exact heq
    refine ⟨f, wF, ?_, hstep, ?_⟩
    · unfold completeRoundSequential
      simp only [hdet, List.drop_zero]
      rw [hrunEq]
    · rw [hdb]
      rfl

/-- C5 witness: all 18 holes of round `r2` have empty shots; the run fails at
`validateData` and the remote store is unchanged. -/
theorem claim5_witness :
    ((∀ n, n ∈ validKeys collEmpty18 ↔
        ∃ d, (n, d) ∈ collEmpty18 ∧ ∃ l, d.shots = some l ∧ l ≠ []) ∧
      (validateResultFor collEmpty18).validHoles = validKeys collEmpty18 ∧
      (validKeys collEmpty18 ≠ [] →
        validateHoleData collEmpty18 = .ok (validateResultFor collEmpty18)) ∧
      (validKeys collEmpty18 = [] → validateHoleData collEmpty18 =
        .error (.stepWrapper "validateData" (.errorObj "No valid holes found in data")))) ∧
    ∃ f wF,
      completeRoundSequential envOK wEmpty "r2" 1 { shots := some [] } "u1" =
        (.error f, wF) ∧
      f.step = "validateData" ∧ wF.db = wEmpty.db :=
  ⟨(claim5_validation_boundary.1 collEmpty18),
   (claim5_validation_boundary.2 envOK wEmpty "r2" 1 { shots := some [] } "u1"
     rfl rfl (by decide))⟩

/-!  Order lemmas for sublists of a duplicate-free list. -/

theorem sublist_head_min :
    ∀ {l L : List String}, l.Sublist L → L.Nodup → ∀ s, l.head? = some s →
      ∀ s' ∈ l, L.indexOf s ≤ L.indexOf s' := by
  intro l L hsub
  induction hsub with
  | slnil => intro _ s hs; simp at hs
  | @cons l2 L2 a hsub2 ih =>
    intro hN s hs s' hs'
    have hN2 := (List.nodup_cons.mp hN).2
    have haL := (List.nodup_cons.mp hN).1
    have hsmem : s ∈ l2 := by
      cases l2 with
      | nil => simp at hs
      | cons x t =>
        simp only [List.head?_cons, Option.some.injEq] at hs
        rw [← hs]
        exact List.mem_cons_self _ _
    have hsne : a ≠ s := fun h => haL (h ▸ hsub2.subset hsmem)
    have hs'ne : a ≠ s' := fun h => haL (h ▸ hsub2.subset hs')
    rw [List.indexOf_cons_ne _ hsne, List.indexOf_cons_ne _ hs'ne]
    exact Nat.succ_le_succ (ih hN2 s hs s' hs')
  | @cons₂ l2 L2 a hsub2 ih =>
    intro hN s hs s' hs'
    simp only [List.head?_cons, Option.some.injEq] at hs
    rw [← hs, List.indexOf_cons_self]
    exact Nat.zero_le _

theorem sublist_getLast_max :
    ∀ {l L : List String}, l.Sublist L → L.Nodup → ∀ s, l.getLast? = some s →
      ∀ s' ∈ l, L.indexOf s' ≤ L.indexOf s := by
  intro l L hsub
  induction hsub with
  | slnil => intro _ s hs; simp at hs
  | @cons l2 L2 a hsub2 ih =>
    intro hN s hs s' hs'
    have hN2 := (List.nodup_cons.mp hN).2
    have haL := (List.nodup_cons.mp hN).1
    have hsmem : s ∈ l2 := List.mem_of_getLast?_eq_some hs
    have hsne : a ≠ s := fun h => haL (h ▸ hsub2.subset hsmem)
    have hs'ne : a ≠ s' := fun h => haL (h ▸ hsub2.subset hs')
    rw [List.indexOf_cons_ne _ hsne, List.indexOf_cons_ne _ hs'ne]
    exact Nat.succ_le_succ (ih hN2 s hs s' hs')
  | @cons₂ l2 L2 a hsub2 ih =>
    intro hN s hs s' hs'
    have hN2 := (List.nodup_cons.mp hN).2
    have haL := (List.nodup_cons.mp hN).1
    cases l2 with
    | nil =>
      simp only [List.getLast?_singleton, Option.some.injEq] at hs
      have : s' = a := by simpa using hs'
      rw [← hs, this]
    | cons b t =>
      rw [List.getLast?_cons_cons] at hs
      have hsmem : s ∈ b :: t := List.mem_of_getLast?_eq_some hs
      have hsne : a ≠ s := fun h => haL (h ▸ hsub2.subset hsmem)
      rcases List.mem_cons.mp hs' with rfl | hs'2
      · rw [List.indexOf_cons_self]
        exact Nat.zero_le _
      · have hs'ne : a ≠ s' := fun h => haL (h ▸ hsub2.subset hs'2)
        rw [List.indexOf_cons_ne _ hsne, List.indexOf_cons_ne _ hs'ne]
        exact Nat.succ_le_succ (ih hN2 s hs s' hs'2)

theorem stepOrder_nodup : stepOrder.Nodup := by decide

theorem stepOrder_indexOf_lt (s : String) (hs : s ∈ stepOrder)
    (hc : s ≠ "cleanup") : stepOrder.indexOf s < 6 := by
  have hcases : s = "saveCurrentHole" ∨ s = "retrieveAllHoles" ∨ s = "validateData" ∨
      s = "saveToDatabase" ∨ s = "markComplete" ∨ s = "generateInsights" ∨
      s = "cleanup" := by simpa [stepOrder] using hs
  rcases hcases with rfl | rfl | rfl | rfl | rfl | rfl | rfl <;>
    first
      | exact absurd rfl hc
      | decide

/-- C3: `detectResumePoint` starts from the beginning when the checkpoint is
absent or expired; otherwise it resumes at the first step recorded `failed`
(first in pipeline order, for a pipeline-ordered progress map), carrying
`lastFailure` forward; otherwise it resumes at the step after the last
recorded `completed` step in the fixed order, starting from the beginning
when that step is the final one or when no step is recorded completed or
failed. -/
theorem claim3_detectResumePoint (env : Env) (w : World) (roundId : String) :
    (env.checkpointReadErr = false → w.checkpointSlot roundId = none →
      (detectResumePoint env w roundId).1 = .startFromBeginning) ∧
    (∀ c : Checkpoint, env.checkpointReadErr = false →
      w.checkpointSlot roundId = some (.valid c) → c.expiresAt < w.now →
      (detectResumePoint env w roundId).1 = .startFromBeginning) ∧
    (∀ c : Checkpoint, env.checkpointReadErr = false →
      w.checkpointSlot roundId = some (.valid c) → ¬c.expiresAt < w.now →
      (∀ s st,
        c.stepProgress.find? (fun p => p.2.status == "failed") = some (s, st) →
        (detectResumePoint env w roundId).1 = .resume s c.lastFailure c ∧
        (pipelineOrdered c.stepProgress →
          ∀ s' st', (s', st') ∈ c.stepProgress → st'.status = "failed" →
            stepOrder.indexOf s ≤ stepOrder.indexOf s')) ∧
      (c.stepProgress.find? (fun p => p.2.status == "failed") = none →
        ∀ s st,
          c.stepProgress.reverse.find? (fun p => p.2.status == "completed") =
            some (s, st) →
          (s ∈ stepOrder → s ≠ "cleanup" →
            (detectResumePoint env w roundId).1 =
              .resume ((stepOrder.get? (stepOrder.indexOf s + 1)).getD "") none c) ∧
          (s = "cleanup" →
            (detectResumePoint env w roundId).1 = .startFromBeginning) ∧
          (pipelineOrdered c.stepProgress →
            ∀ s' st', (s', st') ∈ c.stepProgress → st'.status = "completed" →
              stepOrder.indexOf s' ≤ stepOrder.indexOf s)) ∧
      (c.stepProgress.find? (fun p => p.2.status == "failed") = none →
        c.stepProgress.reverse.find? (fun p => p.2.status == "completed") = none →
        (detectResumePoint env w roundId).1 = .startFromBeginning)) := by
  refine ⟨?_, ?_, ?_⟩
  · intro hread hslot
    simp [detectResumePoint, loadCompletionCheckpoint, hread, hslot]
  · intro c hread hslot hexp
    simp [detectResumePoint, loadCompletionCheckpoint, hread, hslot, hexp]
  · intro c hread hslot hexp
    have hload : loadCompletionCheckpoint env w roundId = (some c, w) := by
      simp [loadCompletionCheckpoint, hread, hslot, hexp]
    refine ⟨?_, ?_, ?_⟩
    · intro s st hfind
      constructor
      · simp [detectResumePoint, hload, hfind]
      · intro hord s' st' hmem hfailed
        have hhead : ((c.stepProgress.filter
            (fun p => p.2.status == "failed")).map Prod.fst).head? = some s := by
          rw [List.head?_map, List.filter_head?, hfind]
          rfl
        have hsubnames : ((c.stepProgress.filter
            (fun p => p.2.status == "failed")).map Prod.fst).Sublist stepOrder :=
          ((c.stepProgress.filter_sublist.map Prod.fst).trans hord)
        have hs'mem : s' ∈ (c.stepProgress.filter
            (fun p => p.2.status == "failed")).map Prod.fst :=
          List.mem_map_of_mem _ (List.mem_filter.mpr ⟨hmem, by simp [hfailed]⟩)
        exact sublist_head_min hsubnames stepOrder_nodup s hhead s' hs'mem
    · intro hnofail s st hlast
      have hlastf : (c.stepProgress.filter
          (fun p => p.2.status == "completed")).getLast? = some (s, st) := by
        rw [List.filter_getLast?]
        exact hlast
      refine ⟨?_, ?_, ?_⟩
      · intro hsmem hsne
        have hji : jsIndexOf stepOrder s = (stepOrder.indexOf s : Int) := by
          simp [jsIndexOf, hsmem]
        have hlt := stepOrder_indexOf_lt s hsmem hsne
        simp only [detectResumePoint, hload, hnofail, hlast, hji]
        have hlen7 : (stepOrder.length : Int) = 7 := by decide
        rw [if_pos (by rw [hlen7]; omega)]
        have hidx : ((stepOrder.indexOf s : Int) + 1).toNat = stepOrder.indexOf s + 1 := by
          omega
        rw [hidx]
      · rintro rfl
        have hji : jsIndexOf stepOrder "cleanup" = 6 := by decide
        simp only [detectResumePoint, hload, hnofail, hlast, hji]
        rw [if_neg (by decide)]
      · intro hord s' st' hmem hcompleted
        have hglast : ((c.stepProgress.filter
            (fun p => p.2.status == "completed")).map Prod.fst).getLast? = some s := by
          rw [List.getLast?_map, hlastf]
          rfl
        have hsubnames : ((c.stepProgress.filter
            (fun p => p.2.status == "completed")).map Prod.fst).Sublist stepOrder :=
          ((c.stepProgress.filter_sublist.map Prod.fst).trans hord)
        have hs'mem : s' ∈ (c.stepProgress.filter
            (fun p => p.2.status == "completed")).map Prod.fst :=
          List.mem_map_of_mem _ (List.mem_filter.mpr ⟨hmem, by simp [hcompleted]⟩)
        exact sublist_getLast_max hsubnames stepOrder_nodup s hglast s' hs'mem
    · intro hnofail hnocomp
      simp [detectResumePoint, hload, hnofail, hnocomp]

/-- C3 witness: concrete checkpoints exercising each branch — no checkpoint,
an expired one, a failed `validateData` entry, steps 1-2 completed (resume at
`validateData`), `cleanup` completed (start from beginning), and an empty
progress map. -/
theorem claim3_witness :
    (detectResumePoint envOK wBase "r1").1 = .startFromBeginning ∧
    (detectResumePoint envOK wExpired "r1").1 = .startFromBeginning ∧
    (detectResumePoint envOK wFailedVD "r1").1 =
      .resume "validateData" cpFailedVD.lastFailure cpFailedVD ∧
    (detectResumePoint envOK wCompleted2 "r1").1 =
      .resume "validateData" none cpCompleted2 ∧
    (detectResumePoint envOK wDone "r1").1 = .startFromBeginning := by
  have h1 := (claim3_detectResumePoint envOK wBase "r1").1 rfl rfl
  have h2 := (claim3_detectResumePoint envOK wExpired "r1").2.1 cpOld rfl rfl (by decide)
  have h3 := ((claim3_detectResumePoint envOK wFailedVD "r1").2.2 cpFailedVD rfl rfl
    (by decide)).1 "validateData" { status := "failed", timestamp := 502, error := none }
    (by decide)
  have h4 := (((claim3_detectResumePoint envOK wCompleted2 "r1").2.2 cpCompleted2 rfl rfl
    (by decide)).2.1 (by decide) "retrieveAllHoles"
    { status := "completed", timestamp := 501 } (by decide)).1 (by decide) (by decide)
  have h5 := ((((claim3_detectResumePoint envOK wDone "r1").2.2 cpDone rfl rfl
    (by decide)).2.1 (by decide) "cleanup"
    { status := "completed", timestamp := 500 } (by decide)).2.1 rfl)
  exact ⟨h1, h2, h3.1, by rw [h4]; rfl, h5⟩

/-!  The failure path of the orchestrator loop. -/

theorem runSteps_error_spec (env : Env) (roundId : String) :
    ∀ (steps : List StepEntry) (results : Results)
      (progress : List (String × StepStatus)) (w : World)
      (f : RunFailure) (w2 : World),
      runSteps env roundId steps results progress w = (.error f, w2) →
      (steps.map StepEntry.name).Nodup →
      f.canRetry = true ∧
      f.step ∈ steps.map StepEntry.name ∧
      (∃ ts, alistGet f.checkpoint f.step =
        some { status := "failed", timestamp := ts, error := f.error.jsMessage }) ∧
      (∃ c, w2.checkpointSlot roundId = some (.valid c) ∧
        c.stepProgress = f.checkpoint ∧
        ∃ ts2, c.lastFailure =
          some (failureRecord f.step f.error.jsMessage ts2 env.auth)) ∧
      (∃ pre s0 post, steps = pre ++ s0 :: post ∧ s0.name = f.step ∧
        ∀ e ∈ post, alistGet f.checkpoint e.name = alistGet progress e.name) := by
  intro steps
  induction steps with
  | nil =>
    intro results progress w f w2 heq _
    simp [runSteps] at heq
  | cons s rest ih =>
    intro results progress w f w2 heq hnd
    rw [List.map_cons, List.nodup_cons] at hnd
    obtain ⟨hsnotin, hnd2⟩ := hnd
    by_cases hskip : (alistGet progress s.name).map StepStatus.status = some "completed"
    · rw [runSteps_cons_skip env roundId s rest results progress w hskip] at heq
      obtain ⟨h1, h2, h3, h4, pre, s0, post, hdec, hname, hpost⟩ :=
        ih results progress w f w2 heq hnd2
      refine ⟨h1, ?_, h3, h4, s :: pre, s0, post, by rw [hdec, List.cons_append], hname, hpost⟩
      rw [List.map_cons]
      exact List.mem_cons_of_mem _ h2
    · rcases hstep : s.fn results (saveCompletionCheckpoint w roundId
          (alistSet progress s.name { status := "pending", timestamp := w.now }) none)
        with ⟨out, wS⟩
      cases out with
      | ok result =>
        rw [runSteps_cons_ok env roundId s rest results progress w result wS hskip
          hstep] at heq
        obtain ⟨h1, h2, h3, h4, pre, s0, post, hdec, hname, hpost⟩ :=
          ih _ _ _ f w2 heq hnd2
        refine ⟨h1, ?_, h3, h4, s :: pre, s0, post, by rw [hdec, List.cons_append], hname, ?_⟩
        · rw [List.map_cons]
          exact List.mem_cons_of_mem _ h2
        · intro e he
          rw [hpost e he]
          apply alistGet_set_ne
          intro hEq
          apply hsnotin
          rw [hEq]
          apply List.mem_map_of_mem
          rw [hdec]
          exact List.mem_append_right _ (List.mem_cons_of_mem _ he)
      | error err =>
        rw [runSteps_cons_error env roundId s rest results progress w err wS hskip
          hstep] at heq
        have hf : f = mkRunFailure s.name err
            (alistSet progress s.name (failedEntry wS.now err.jsMessage)) := by
          have h5 := congrArg Prod.fst heq
          simp only [Except.error.injEq] at h5
          exact h5.symm
        have hw : w2 = saveCompletionCheckpoint wS roundId
            (alistSet progress s.name (failedEntry wS.now err.jsMessage))
            (some (failureRecord s.name err.jsMessage wS.now env.auth)) := by
          have h6 := congrArg Prod.snd heq
          exact h6.symm
        subst hf
        subst hw
        refine ⟨rfl, ?_, ⟨wS.now, ?_⟩, ?_, [], s, rest, rfl, rfl, ?_⟩
        · rw [List.map_cons]
          exact List.mem_cons_self _ _
        · exact alistGet_set_self progress s.name _
        · exact ⟨_, saveCP_slot_self wS roundId _ _, rfl, wS.now, rfl⟩
        · intro e he
          apply alistGet_set_ne
          intro hEq
          exact hsnotin (hEq ▸ List.mem_map_of_mem _ he)

theorem completeSeq_run_eq (env : Env) (w0 : World) (roundId : String)
    (currentHole : Nat) (hd : HoleData) (userId : String) :
    completeRoundSequential env w0 roundId currentHole hd userId =
      match runSteps env roundId
          ((completionSteps env roundId currentHole hd userId).drop
            (resumeStartIndex env w0 roundId
              (completionSteps env roundId currentHole hd userId)))
          (fun _ => none) (initialProgress env w0 roundId)
          (detectResumePoint env w0 roundId).2 with
      | (.error f, w2) => (.error f, w2)
      | (.ok (results, _), w2) =>
        (.ok { success := true, results := results,
               resumedFromCheckpoint := resumedFlag env w0 roundId },
         clearCompletionCheckpoint w2 roundId) := rfl

theorem completionSteps_names (env : Env) (roundId : String) (currentHole : Nat)
    (hd : HoleData) (userId : String) :
    (completionSteps env roundId currentHole hd userId).map StepEntry.name =
      stepOrder := rfl

/-- C7 (amended): when a pipeline step throws, the orchestrator saves a
checkpoint whose entry for the failing step has status `failed` and whose
`error` field holds the thrown error's `.message` property — which is
`undefined` (here `none`) for the `{step, originalError}` wrapper objects
the step functions throw, so the underlying message is not stored in the
checkpoint — together with a `lastFailure` record carrying the auth-context
snapshot; it executes no further step (the progress entries after the
failing step are exactly as they started), and it throws a failure object
holding the failing step's name, the underlying error itself, the
accumulated checkpoint state and `canRetry = true`. -/
theorem claim7_failure_shape (env : Env) (w0 : World) (roundId : String)
    (currentHole : Nat) (hd : HoleData) (userId : String) (f : RunFailure)
    (w2 : World)
    (heq : completeRoundSequential env w0 roundId currentHole hd userId =
      (.error f, w2)) :
    f.canRetry = true ∧
    f.step ∈ stepOrder ∧
    (∃ ts, alistGet f.checkpoint f.step =
      some { status := "failed", timestamp := ts, error := f.error.jsMessage }) ∧
    (∃ c, w2.checkpointSlot roundId = some (.valid c) ∧
      c.stepProgress = f.checkpoint ∧
      ∃ ts2, c.lastFailure =
        some (failureRecord f.step f.error.jsMessage ts2 env.auth)) ∧
    (∃ pre s0 post,
      (completionSteps env roundId currentHole hd userId).drop
        (resumeStartIndex env w0 roundId
          (completionSteps env roundId currentHole hd userId)) =
        pre ++ s0 :: post ∧
      s0.name = f.step ∧
      ∀ e ∈ post, alistGet f.checkpoint e.name =
        alistGet (initialProgress env w0 roundId) e.name) := by
  rw [completeSeq_run_eq] at heq
  rcases hrun : runSteps env roundId
      ((completionSteps env roundId currentHole hd userId).drop
        (resumeStartIndex env w0 roundId
          (completionSteps env roundId currentHole hd userId)))
      (fun _ => none) (initialProgress env w0 roundId)
      (detectResumePoint env w0 roundId).2 with ⟨out, wR⟩
  rw [hrun] at heq
  cases out with
  | ok pr =>
    rcases pr with ⟨results0, prog0⟩
    have heq2 : ((Except.ok ⟨true, results0, resumedFlag env w0 roundId⟩ :
        Except RunFailure RunSuccess),
        clearCompletionCheckpoint wR roundId) = (.error f, w2) := heq
    injection heq2 with h5 h6
    exact absurd h5 (by simp)
  | error f0 =>
    have heq2 : ((Except.error f0 : Except RunFailure RunSuccess), wR) =
        (.error f, w2) := heq
    injection heq2 with h5 h6
    injection h5 with h7
    subst h7
    subst h6
    have hsub : ((completionSteps env roundId currentHole hd userId).drop
        (resumeStartIndex env w0 roundId
          (completionSteps env roundId currentHole hd userId))).Sublist
        (completionSteps env roundId currentHole hd userId) :=
      List.drop_sublist _ _
    have hnd : (((completionSteps env roundId currentHole hd userId).drop
        (resumeStartIndex env w0 roundId
          (completionSteps env roundId currentHole hd userId))).map
          StepEntry.name).Nodup := by
      refine List.Nodup.sublist (hsub.map StepEntry.name) ?_
      rw [completionSteps_names]
      exact stepOrder_nodup
    obtain ⟨h1, h2, h3, h4, h5all⟩ :=
      runSteps_error_spec env roundId _ _ _ _ f0 wR hrun hnd
    refine ⟨h1, ?_, h3, h4, h5all⟩
    obtain ⟨e, he, hename⟩ := List.mem_map.mp h2
    rw [← hename, ← completionSteps_names env roundId currentHole hd userId]
    exact List.mem_map_of_mem _ (hsub.subset he)

theorem claim7_witness :
    fBoom.canRetry = true ∧
    fBoom.step ∈ stepOrder ∧
    (∃ ts, alistGet fBoom.checkpoint fBoom.step =
      some { status := "failed", timestamp := ts,
             error := fBoom.error.jsMessage }) ∧
    (∃ c, (completeRoundSequential envBoom wBase "r1" 3 (holeWithShots 3)
        "u1").2.checkpointSlot "r1" = some (.valid c) ∧
      c.stepProgress = fBoom.checkpoint ∧
      ∃ ts2, c.lastFailure =
        some (failureRecord fBoom.step fBoom.error.jsMessage ts2
          envBoom.auth)) ∧
    (∃ pre s0 post,
      (completionSteps envBoom "r1" 3 (holeWithShots 3) "u1").drop
        (resumeStartIndex envBoom wBase "r1"
          (completionSteps envBoom "r1" 3 (holeWithShots 3) "u1")) =
        pre ++ s0 :: post ∧
      s0.name = fBoom.step ∧
      ∀ e ∈ post, alistGet fBoom.checkpoint e.name =
        alistGet (initialProgress envBoom wBase "r1") e.name) :=
  claim7_failure_shape envBoom wBase "r1" 3 (holeWithShots 3) "u1" fBoom
    (completeRoundSequential envBoom wBase "r1" 3 (holeWithShots 3) "u1").2
    rfl

/-- C7 counterexample: the `shots` upsert for hole 2 fails with message
`boom`; the run aborts at `saveToDatabase` as claimed, but the checkpoint
entry saved for the failed step records `error := none` — not the message
`boom` of the underlying error — because the step functions throw
`{step, originalError}` wrapper objects that have no `.message` property
for the checkpoint writer to read. -/
theorem claim7_counterexample :
    (completeRoundSequential envBoom wBase "r1" 3 (holeWithShots 3) "u1").1 =
      Except.error fBoom ∧
    fBoom.error = .stepWrapper "saveToDatabase" (.errorObj "boom") ∧
    alistGet fBoom.checkpoint "saveToDatabase" =
      some { status := "failed", timestamp := 1000, error := none } ∧
    ¬ alistGet fBoom.checkpoint "saveToDatabase" =
      some { status := "failed", timestamp := 1000, error := some "boom" } :=
  ⟨rfl, rfl, by decide, by decide⟩

/-- C2 (code bug): with a stored checkpoint recording steps 1–3 completed
and `saveToDatabase` failed, a new `complete` call does resume at
`saveToDatabase` and does not re-invoke `saveCurrentHole`, but it does not
re-derive the validated holes from local storage either: the resumed step
reads `previousResults.retrieveAllHoles.data` off the fresh in-memory
accumulator, which holds nothing after a resume, so it throws a TypeError;
the run fails at `saveToDatabase` again and writes no remote rows, although
local storage still holds three holes with shots. -/
theorem claim2_resume_bug :
    (detectResumePoint envOK wResume "r1").1 =
      ResumePlan.resume "saveToDatabase" cpResume.lastFailure cpResume ∧
    (completeRoundSequential envOK wResume "r1" 4 (holeWithShots 2) "u1").1 =
      Except.error { step := "saveToDatabase", error := typeErrorUndefinedData,
                     checkpoint := cpResumeFailedProgress, canRetry := true } ∧
    (completeRoundSequential envOK wResume "r1" 4 (holeWithShots 2)
      "u1").2.db.shots = [] ∧
    (completeRoundSequential envOK wResume "r1" 4 (holeWithShots 2)
      "u1").2.localHoles "r1" = some collThree :=
  ⟨rfl, rfl, rfl, rfl⟩

end GolfRound
